import Mathlib

/-!
# jet: operators, the CASE operator and the join relation

A shallow embedding of `operators.go` (package `jet`) and of the relation
model its test file exercises, followed by the properties proved about them.
What `operators.go` uses and does not declare (the builder, the statement
kind, the options, the operator nodes, the relations) is modelled from the
specification and marked as such.

Conventions of the embedding.

* A Go interface value of type `Expression` is a record holding its `serialize`
  method.  A value of the Lean type `Expression` is a non-nil interface value;
  the two fields the source tests against `nil` (`expression`, `els`) are
  `Option Expression`.
* A Go `error` is its message; `nil` is `none`.
* `out *sqlBuilder` is threaded explicitly: `serialize` returns the builder as
  it is left when the call returns, together with the returned error.  On a
  failure the builder keeps whatever had been written before the `return`.
* A method with receiver `c *caseOperatorImpl` that assigns to the receiver
  (`WHEN`, `THEN`, `ELSE`) returns the receiver after the call; the receiver
  of `serialize` may be the nil pointer and is an `Option caseOperatorImpl`.
* `serialize` is embedded a second time statement by statement on the heap
  (`serializeOnHeap`, `serializeCall`), the node and the builder both threaded,
  and the two embeddings are proved to agree (`serializeCall_eq`).
-/

namespace jet

set_option autoImplicit false

/-! ## Types the source uses and does not declare -/

/-- Modelled from the spec: the declaration of `statementType` is not among the
sources.  The statement kind is "one of select/insert/update/delete". -/
inductive statementType where
  | selectStatement
  | insertStatement
  | updateStatement
  | deleteStatement
  deriving DecidableEq, Repr

/-- Modelled from the spec: the declaration of `serializeOption` and of the
constant `noWrap` is not among the sources.  The options are "a small set of
per-call serialization options, the most important being no-wrap"; any option
other than `noWrap` is kept by its number. -/
inductive serializeOption where
  | noWrap
  | option (n : Nat)
  deriving DecidableEq, Repr

/-- Modelled from the spec: the result category of an expression, "boolean /
integer / float / string / date-time / generic". -/
inductive ResultCategory where
  | boolean
  | integer
  | float
  | string
  | dateTime
  | generic
  deriving DecidableEq, Repr

/-- A Go `error` value, identified with its message. -/
abbrev error := String

/-- Modelled from the spec: the type `sqlBuilder` and its method `writeString`
are not among the sources.  The builder holds an "accumulated text buffer" to
which nodes append "tokens (keywords, identifiers, literals, punctuation)";
the buffer is kept as the sequence of tokens written so far, and the
whitespace the builder puts between two tokens is left to the builder. -/
structure sqlBuilder where
  buff : List String
  deriving DecidableEq, Repr

/-- Modelled from the spec: `writeString` appends one token to the buffer. -/
def sqlBuilder.writeString (out : sqlBuilder) (str : String) : sqlBuilder :=
  { out with buff := out.buff ++ [str] }

/-- The interface `Expression`, reduced to the one method `operators.go` calls:
`serialize(statement, out, options...) error`, with `out` threaded. -/
structure Expression where
  serialize : statementType → sqlBuilder → List serializeOption → sqlBuilder × Option error

/-! ## `operators.go`: the CASE operator -/

/-- The struct `caseOperatorImpl`.  The embedded `expressionInterfaceImpl` only
holds `parent`, a pointer back to the node itself, and carries no state of its
own. -/
structure caseOperatorImpl where
  expression : Option Expression
  when : List Expression
  then_ : List Expression
  els : Option Expression

/-- The constructor `CASE(expression ...Expression)`: a fresh node whose subject is the first
argument, if there is one. -/
def CASE (expression : List Expression) : caseOperatorImpl :=
  { expression := match expression with
      | [] => none
      | e :: _ => some e
    when := []
    then_ := []
    els := none }

/-- The method `(c *caseOperatorImpl) WHEN(when)`: `c.when = append(c.when, when)`. -/
def caseOperatorImpl.WHEN (c : caseOperatorImpl) (when : Expression) : caseOperatorImpl :=
  { c with when := c.when ++ [when] }

/-- The method `(c *caseOperatorImpl) THEN(then)`: `c.then = append(c.then, then)`. -/
def caseOperatorImpl.THEN (c : caseOperatorImpl) (then_ : Expression) : caseOperatorImpl :=
  { c with then_ := c.then_ ++ [then_] }

/-- The method `(c *caseOperatorImpl) ELSE(els)`: `c.els = els`. -/
def caseOperatorImpl.ELSE (c : caseOperatorImpl) (els : Expression) : caseOperatorImpl :=
  { c with els := some els }

/-- The loop `for i, when := range c.when` of `serialize`, entered at index `i`
with the conditions still to visit.  `c.then[i]` past the end of `c.then` is a
run-time panic in Go; the two length checks before the loop exclude it. -/
def caseOperatorImpl.serializeWhenThen (statement : statementType) (then_ : List Expression) :
    List Expression → Nat → sqlBuilder → sqlBuilder × Option error
  | [], _, out => (out, none)
  | when :: rest, i, out =>
    let out := out.writeString "WHEN"
    match when.serialize statement out [serializeOption.noWrap] with
    | (out, some err) => (out, some err)
    | (out, none) =>
      let out := out.writeString "THEN"
      match then_[i]? with
      | none => (out, some "runtime error: index out of range")
      | some t =>
        match t.serialize statement out [serializeOption.noWrap] with
        | (out, some err) => (out, some err)
        | (out, none) => caseOperatorImpl.serializeWhenThen statement then_ rest (i + 1) out

/-- The method `(c *caseOperatorImpl) serialize(statement, out, options...)`. -/
def caseOperatorImpl.serialize (c : Option caseOperatorImpl) (statement : statementType)
    (out : sqlBuilder) (_options : List serializeOption) : sqlBuilder × Option error :=
  match c with
  | none => (out, some "jet: Case Expression is nil. ")
  | some c =>
    let out := out.writeString "(CASE"
    match (match c.expression with
           | some expression => expression.serialize statement out []
           | none => (out, none)) with
    | (out, some err) => (out, some err)
    | (out, none) =>
      if c.when.length = 0 ∨ c.then_.length = 0 then
        (out, some "jet: Invalid case Statement. There should be at least one when/then Expression pair. ")
      else if c.when.length ≠ c.then_.length then
        (out, some "jet: When and then Expression count mismatch. ")
      else
        match caseOperatorImpl.serializeWhenThen statement c.then_ c.when 0 out with
        | (out, some err) => (out, some err)
        | (out, none) =>
          match (match c.els with
                 | some els =>
                   els.serialize statement (out.writeString "ELSE") [serializeOption.noWrap]
                 | none => (out, none)) with
          | (out, some err) => (out, some err)
          | (out, none) => (out.writeString "END)", none)

/-- The two cells a call `c.serialize(statement, out, options...)` on a non-nil
receiver holds pointers to: the node `c` points to and the builder `out`
points to.  Every statement of the method is a step from heap to heap. -/
structure Heap where
  node : caseOperatorImpl
  out : sqlBuilder

/-- The statement `out.writeString(str)` as a step on the heap. -/
def Heap.writeString (h : Heap) (str : String) : Heap :=
  { h with out := h.out.writeString str }

/-- The call `e.serialize(statement, out, options...)` of an operand as a step
on the heap: the operand is handed `out`, and the error it returns is kept
beside the heap. -/
def Heap.serializeOperand (h : Heap) (e : Expression) (statement : statementType)
    (options : List serializeOption) : Heap × Option error :=
  ({ h with out := (e.serialize statement h.out options).1 },
    (e.serialize statement h.out options).2)

/-- The loop `for i, when := range c.when` of `serialize` on the heap: the
range expression `c.when` is read once, before the loop, and `c.then[i]` is
read from the heap in each round. -/
def caseOperatorImpl.serializeWhenThenOnHeap (statement : statementType) :
    List Expression → Nat → Heap → Heap × Option error
  | [], _, h => (h, none)
  | when :: rest, i, h =>
    match (h.writeString "WHEN").serializeOperand when statement [serializeOption.noWrap] with
    | (h, some err) => (h, some err)
    | (h, none) =>
      let h := h.writeString "THEN"
      match h.node.then_[i]? with
      | none => (h, some "runtime error: index out of range")
      | some t =>
        match h.serializeOperand t statement [serializeOption.noWrap] with
        | (h, some err) => (h, some err)
        | (h, none) => caseOperatorImpl.serializeWhenThenOnHeap statement rest (i + 1) h

/-- The body of `(c *caseOperatorImpl) serialize` after the nil guard, statement
by statement on the heap: each read of a field of `c` is a read of the node of
the heap as it is at that point. -/
def caseOperatorImpl.serializeOnHeap (statement : statementType)
    (_options : List serializeOption) (h : Heap) : Heap × Option error :=
  let h := h.writeString "(CASE"
  match (match h.node.expression with
         | some expression => h.serializeOperand expression statement []
         | none => (h, none)) with
  | (h, some err) => (h, some err)
  | (h, none) =>
    if h.node.when.length = 0 ∨ h.node.then_.length = 0 then
      (h, some "jet: Invalid case Statement. There should be at least one when/then Expression pair. ")
    else if h.node.when.length ≠ h.node.then_.length then
      (h, some "jet: When and then Expression count mismatch. ")
    else
      match caseOperatorImpl.serializeWhenThenOnHeap statement h.node.when 0 h with
      | (h, some err) => (h, some err)
      | (h, none) =>
        match (match h.node.els with
               | some els =>
                 (h.writeString "ELSE").serializeOperand els statement [serializeOption.noWrap]
               | none => (h, none)) with
        | (h, some err) => (h, some err)
        | (h, none) => (h.writeString "END)", none)

/-- The call `c.serialize(statement, out, options...)` with the receiver and the
builder it points to passed in and handed back: the node `c` points to after
the call (none for the nil pointer, which points to no node), the builder
after the call, and the error returned. -/
def caseOperatorImpl.serializeCall (statement : statementType)
    (options : List serializeOption) :
    Option caseOperatorImpl → sqlBuilder → (Option caseOperatorImpl × sqlBuilder) × Option error
  | none, out => ((none, out), some "jet: Case Expression is nil. ")
  | some c, out =>
    ((some (caseOperatorImpl.serializeOnHeap statement options ⟨c, out⟩).1.node,
      (caseOperatorImpl.serializeOnHeap statement options ⟨c, out⟩).1.out),
      (caseOperatorImpl.serializeOnHeap statement options ⟨c, out⟩).2)

/-- A `*caseOperatorImpl` (possibly the nil pointer) used as an `Expression`:
`CaseOperator` embeds `Expression`, and the method is the one above. -/
def caseOperatorImpl.toExpression (c : Option caseOperatorImpl) : Expression :=
  ⟨fun statement out options => caseOperatorImpl.serialize c statement out options⟩

/-! ## `operators.go`: the operator constructors -/

/-- The interface `BoolExpression`: an expression of the boolean category.
"This category is enforced by the capability/interface the node satisfies,
not by a runtime tag". -/
abbrev BoolExpression := Expression

/-- The interface `IntegerExpression`: an expression of the integer category. -/
abbrev IntegerExpression := Expression

/-- Modelled from the spec: the type `SelectStatement` is not among the sources.
A sub-query is "a full statement, not a plain expression", taken as an operand
through "a narrow is-serializable-as-a-statement capability". -/
structure SelectStatement where
  serialize : statementType → sqlBuilder → List serializeOption → sqlBuilder × Option error

/-- A statement as the operand of an operator: its capability to serialize. -/
def SelectStatement.toExpression (s : SelectStatement) : Expression :=
  ⟨s.serialize⟩

/-- Modelled from the spec: the binary operator node is not among the sources.
The families of operators "share the same binary-operator node shape,
parameterized only by the literal operator token and declared result
category"; a node "records the operator token and operand references". -/
structure binaryOpExpression where
  lhs : Expression
  rhs : Expression
  operator : String
  category : ResultCategory

/-- Modelled from the spec: the node of a prefix operator, with its one operand,
its operator token and its result category. -/
structure prefixOpExpression where
  expression : Expression
  operator : String
  category : ResultCategory

/-- Modelled from the spec: `newBinaryBoolOperator(lhs, rhs, operator)`, the
binary node of the boolean category. -/
def newBinaryBoolOperator (lhs rhs : Expression) (operator : String) : binaryOpExpression :=
  { lhs := lhs, rhs := rhs, operator := operator, category := ResultCategory.boolean }

/-- Modelled from the spec: `newPrefixBoolOperator(expression, operator)`, the
prefix node of the boolean category. -/
def newPrefixBoolOperator (expression : Expression) (operator : String) : prefixOpExpression :=
  { expression := expression, operator := operator, category := ResultCategory.boolean }

/-- Modelled from the spec: `newPrefixIntegerOperator(expression, operator)`,
the prefix node of the integer category. -/
def newPrefixIntegerOperator (expression : Expression) (operator : String) :
    prefixOpExpression :=
  { expression := expression, operator := operator, category := ResultCategory.integer }

/-- The constructor `NOT(exp BoolExpression)`. -/
def NOT (exp : BoolExpression) : prefixOpExpression :=
  newPrefixBoolOperator exp "NOT"

/-- The constructor `BIT_NOT(expr IntegerExpression)`. -/
def BIT_NOT (expr : IntegerExpression) : prefixOpExpression :=
  newPrefixIntegerOperator expr "~"

/-- The constructor `EXISTS(subQuery SelectStatement)`. -/
def EXISTS (subQuery : SelectStatement) : prefixOpExpression :=
  newPrefixBoolOperator subQuery.toExpression "EXISTS"

/-- The constructor `eq(lhs, rhs Expression)`. -/
def eq (lhs rhs : Expression) : binaryOpExpression :=
  newBinaryBoolOperator lhs rhs "="

/-- The constructor `notEq(lhs, rhs Expression)`. -/
def notEq (lhs rhs : Expression) : binaryOpExpression :=
  newBinaryBoolOperator lhs rhs "!="

/-- The constructor `isDistinctFrom(lhs, rhs Expression)`. -/
def isDistinctFrom (lhs rhs : Expression) : binaryOpExpression :=
  newBinaryBoolOperator lhs rhs "IS DISTINCT FROM"

/-- The constructor `isNotDistinctFrom(lhs, rhs Expression)`. -/
def isNotDistinctFrom (lhs rhs : Expression) : binaryOpExpression :=
  newBinaryBoolOperator lhs rhs "IS NOT DISTINCT FROM"

/-- The constructor `lt(lhs, rhs Expression)`. -/
def lt (lhs rhs : Expression) : binaryOpExpression :=
  newBinaryBoolOperator lhs rhs "<"

/-- The constructor `ltEq(lhs, rhs Expression)`. -/
def ltEq (lhs rhs : Expression) : binaryOpExpression :=
  newBinaryBoolOperator lhs rhs "<="

/-- The constructor `gt(lhs, rhs Expression)`. -/
def gt (lhs rhs : Expression) : binaryOpExpression :=
  newBinaryBoolOperator lhs rhs ">"

/-- The constructor `gtEq(lhs, rhs Expression)`. -/
def gtEq (lhs rhs : Expression) : binaryOpExpression :=
  newBinaryBoolOperator lhs rhs ">="

/-- Modelled from the spec: the method `serialize` of a binary operator node is
not among the sources.  Composite nodes "serialize by writing an opening
parenthesis (unless the caller passed a no-wrap option), recursively
serializing the operand(s) with no-wrap themselves (operators already add
their own grouping), writing the operator token, and closing the
parenthesis"; a node "fails if a child's serialization fails; the first failure
short-circuits further rendering and is returned unchanged".  The words on the
operands are read as: the node puts no parenthesis of its own around an
operand and passes no option on to it, an operand that is an operator adding
its own pair.  That is the reading under which the output is
"fully-parenthesized [...] for any expression tree" and `NOT(a) EQ b` renders
as `((NOT a) = b)`, as the same specification has it. -/
def binaryOpExpression.serialize (c : binaryOpExpression) (statement : statementType)
    (out : sqlBuilder) (options : List serializeOption) : sqlBuilder × Option error :=
  let wrap := decide (serializeOption.noWrap ∉ options)
  let out := if wrap then out.writeString "(" else out
  match c.lhs.serialize statement out [] with
  | (out, some err) => (out, some err)
  | (out, none) =>
    let out := out.writeString c.operator
    match c.rhs.serialize statement out [] with
    | (out, some err) => (out, some err)
    | (out, none) => (if wrap then out.writeString ")" else out, none)

/-- Modelled from the spec: the method `serialize` of a prefix operator node,
as that of the binary node with the operator token before the one operand:
`NOT a` renders as `(NOT a)`. -/
def prefixOpExpression.serialize (c : prefixOpExpression) (statement : statementType)
    (out : sqlBuilder) (options : List serializeOption) : sqlBuilder × Option error :=
  let wrap := decide (serializeOption.noWrap ∉ options)
  let out := if wrap then out.writeString "(" else out
  let out := out.writeString c.operator
  match c.expression.serialize statement out [] with
  | (out, some err) => (out, some err)
  | (out, none) => (if wrap then out.writeString ")" else out, none)

/-- A binary operator node used as an `Expression`. -/
def binaryOpExpression.toExpression (c : binaryOpExpression) : Expression :=
  ⟨fun statement out options => c.serialize statement out options⟩

/-- A prefix operator node used as an `Expression`. -/
def prefixOpExpression.toExpression (c : prefixOpExpression) : Expression :=
  ⟨fun statement out options => c.serialize statement out options⟩

/-! ## The rendering the specification describes -/

/-- One step of a rendering: a token written by the node itself, or an operand
asked to serialize itself with the given options. -/
inductive RenderStep where
  | token (s : String)
  | operand (e : Expression) (options : List serializeOption)

/-- Carrying out one step on a builder. -/
def RenderStep.run (statement : statementType) : RenderStep → sqlBuilder → sqlBuilder × Option error
  | .token s, out => (out.writeString s, none)
  | .operand e options, out => e.serialize statement out options

/-- Carrying out steps in order; the first failure ends the run and is returned
with the builder as that step left it. -/
def runSteps (statement : statementType) : List RenderStep → sqlBuilder → sqlBuilder × Option error
  | [], out => (out, none)
  | s :: rest, out =>
    match s.run statement out with
    | (out, none) => runSteps statement rest out
    | (out, some err) => (out, some err)

/-- The builder after all the steps have been carried out in order. -/
def appendSteps (statement : statementType) : List RenderStep → sqlBuilder → sqlBuilder
  | [], out => out
  | s :: rest, out => appendSteps statement rest (s.run statement out).1

/-- The steps of one WHEN/THEN pair: `WHEN w THEN t`, both operands no-wrap. -/
def pairSteps (w t : Expression) : List RenderStep :=
  [.token "WHEN", .operand w [serializeOption.noWrap],
   .token "THEN", .operand t [serializeOption.noWrap]]

/-- The steps of the pairs `(w1, t1), (w2, t2), ...` in call order. -/
def branchSteps : List Expression → List Expression → List RenderStep
  | w :: ws, t :: ts => pairSteps w t ++ branchSteps ws ts
  | _, _ => []

/-- The subject, rendered with default options, when there is one. -/
def subjectSteps : Option Expression → List RenderStep
  | some e => [.operand e []]
  | none => []

/-- The token `ELSE` and the default, rendered no-wrap, when ELSE was set. -/
def elseSteps : Option Expression → List RenderStep
  | some e => [.token "ELSE", .operand e [serializeOption.noWrap]]
  | none => []

/-- The rendering of a CASE node as the specification words it:
`(CASE [subject] WHEN w1 THEN t1 [WHEN w2 THEN t2 ...] [ELSE e] END)`. -/
def caseRendering (c : caseOperatorImpl) : List RenderStep :=
  [.token "(CASE"] ++ subjectSteps c.expression ++ branchSteps c.when c.then_
    ++ elseSteps c.els ++ [.token "END)"]

/-- A leaf that renders as the single token `s` and never fails. -/
def tokenLeaf (s : String) : Expression :=
  ⟨fun _ out _ => (out.writeString s, none)⟩

/-- A leaf that writes nothing and fails with the error `err`. -/
def failingLeaf (err : error) : Expression :=
  ⟨fun _ out _ => (out, some err)⟩

/-- The node `CASE().WHEN(c1).THEN(r1).WHEN(c2).THEN(r2).ELSE(d)` over token leaves. -/
def twoBranchCase : caseOperatorImpl :=
  ((((CASE []).WHEN (tokenLeaf "c1")).THEN (tokenLeaf "r1")).WHEN (tokenLeaf "c2")).THEN
    (tokenLeaf "r2") |>.ELSE (tokenLeaf "d")

/-- The node `CASE(subject).WHEN(w1).WHEN(w2).THEN(t1).ELSE(d)`: two conditions
and one result, with ELSE set. -/
def unbalancedCase (subject : Expression) : caseOperatorImpl :=
  ((((CASE [subject]).WHEN (tokenLeaf "w1")).WHEN (tokenLeaf "w2")).THEN (tokenLeaf "t1")).ELSE
    (tokenLeaf "d")

/-- The node `CASE(s).WHEN(w1).THEN(t1).WHEN(w2).THEN(t2).ELSE(d)` whose second
condition fails with the error "boom"; the other operands are token leaves. -/
def failingBranchCase : caseOperatorImpl :=
  (((((CASE [tokenLeaf "s"]).WHEN (tokenLeaf "w1")).THEN (tokenLeaf "t1")).WHEN
    (failingLeaf "boom")).THEN (tokenLeaf "t2")).ELSE (tokenLeaf "d")

/-- A leaf that shows the options it is serialized with: it writes the token
"bare" when `noWrap` is among them and the token "wrapped" otherwise. -/
def wrapProbe : Expression :=
  ⟨fun _ out options =>
    (out.writeString (if serializeOption.noWrap ∈ options then "bare" else "wrapped"), none)⟩

/-- The node `CASE(p).WHEN(p).THEN(p).ELSE(p)` over the probing leaf. -/
def probeCase : caseOperatorImpl :=
  (((CASE [wrapProbe]).WHEN wrapProbe).THEN wrapProbe).ELSE wrapProbe

/-- The node `CASE().WHEN(inner).THEN(t)` whose one condition is the CASE node
`CASE(s).WHEN(w1).WHEN(w2).THEN(t1).ELSE(d)`, itself unbalanced. -/
def nestedUnbalancedCase : caseOperatorImpl :=
  ((CASE []).WHEN (caseOperatorImpl.toExpression (some (unbalancedCase (tokenLeaf "s"))))).THEN
    (tokenLeaf "t")

/-! ## Finite expression trees -/

mutual
/-- A finite expression tree, as far as CASE nodes go: a node of another kind
(any expression, whose own `serialize` returns), the nil CASE node, or a CASE
node over finite trees in subject, WHEN, THEN and ELSE position. -/
inductive ExprTree where
  | leaf (e : Expression)
  | nilCase
  | caseNode (expression : OptTree) (when : TreeList) (then_ : TreeList) (els : OptTree)
/-- A finite sequence of trees: the conditions or the results of a CASE node. -/
inductive TreeList where
  | nil
  | cons (head : ExprTree) (tail : TreeList)
/-- A tree or none: the subject or the default of a CASE node. -/
inductive OptTree where
  | none
  | some (e : ExprTree)
end

mutual
/-- The expression a finite tree stands for. -/
def ExprTree.toExpression : ExprTree → Expression
  | .leaf e => e
  | .nilCase => caseOperatorImpl.toExpression none
  | .caseNode expression when then_ els =>
    caseOperatorImpl.toExpression (some
      { expression := expression.toExpression
        when := when.toExpressions
        then_ := then_.toExpressions
        els := els.toExpression })
/-- The expressions a sequence of trees stands for. -/
def TreeList.toExpressions : TreeList → List Expression
  | .nil => []
  | .cons head tail => head.toExpression :: tail.toExpressions
/-- The expression, if any, that an optional tree stands for. -/
def OptTree.toExpression : OptTree → Option Expression
  | .none => Option.none
  | .some e => Option.some e.toExpression
end

mutual
/-- The depth of a tree: 1 for a leaf and for the nil CASE node, one more than
the deepest operand for a CASE node. -/
def ExprTree.depth : ExprTree → Nat
  | .leaf _ => 1
  | .nilCase => 1
  | .caseNode expression when then_ els =>
    max (max expression.depth when.depth) (max then_.depth els.depth) + 1
/-- The depth of the deepest tree of a sequence, 0 for the empty one. -/
def TreeList.depth : TreeList → Nat
  | .nil => 0
  | .cons head tail => max head.depth tail.depth
/-- The depth of an optional tree, 0 for none. -/
def OptTree.depth : OptTree → Nat
  | .none => 0
  | .some e => e.depth
end

/-- The trees of a sequence, as a list. -/
def TreeList.toList : TreeList → List ExprTree
  | .nil => []
  | .cons head tail => head :: tail.toList

/-- The tree of an optional tree, as an option. -/
def OptTree.toOption : OptTree → Option ExprTree
  | .none => Option.none
  | .some e => Option.some e

/-- The outcome of a call of `serialize` made under a bound on the nesting of
calls: `none` when the bound was reached before the call returned. -/
abbrev BoundedOutcome := Option (sqlBuilder × Option error)

/-- The loop `for i, when := range c.when` of `serialize` on trees, the operands
serialized by `ser`. -/
def serializeWhenThenWithin
    (ser : ExprTree → statementType → sqlBuilder → List serializeOption → BoundedOutcome)
    (statement : statementType) (then_ : List ExprTree) :
    List ExprTree → Nat → sqlBuilder → BoundedOutcome
  | [], _, out => some (out, none)
  | when :: rest, i, out =>
    let out := out.writeString "WHEN"
    match ser when statement out [serializeOption.noWrap] with
    | none => none
    | some (out, some err) => some (out, some err)
    | some (out, none) =>
      let out := out.writeString "THEN"
      match then_[i]? with
      | none => some (out, some "runtime error: index out of range")
      | some t =>
        match ser t statement out [serializeOption.noWrap] with
        | none => none
        | some (out, some err) => some (out, some err)
        | some (out, none) => serializeWhenThenWithin ser statement then_ rest (i + 1) out

/-- The method `serialize` of a CASE node on trees, the operands serialized by
`ser`: the body of `(c *caseOperatorImpl) serialize` once more, a call of
`serialize` on an operand being a call of `ser`. -/
def serializeCaseWithin
    (ser : ExprTree → statementType → sqlBuilder → List serializeOption → BoundedOutcome)
    (expression : Option ExprTree) (when then_ : List ExprTree) (els : Option ExprTree)
    (statement : statementType) (out : sqlBuilder) : BoundedOutcome :=
  let out := out.writeString "(CASE"
  match (match expression with
         | some expression => ser expression statement out []
         | none => some (out, none)) with
  | none => none
  | some (out, some err) => some (out, some err)
  | some (out, none) =>
    if when.length = 0 ∨ then_.length = 0 then
      some (out, some
        "jet: Invalid case Statement. There should be at least one when/then Expression pair. ")
    else if when.length ≠ then_.length then
      some (out, some "jet: When and then Expression count mismatch. ")
    else
      match serializeWhenThenWithin ser statement then_ when 0 out with
      | none => none
      | some (out, some err) => some (out, some err)
      | some (out, none) =>
        match (match els with
               | some els =>
                 ser els statement (out.writeString "ELSE") [serializeOption.noWrap]
               | none => some (out, none)) with
        | none => none
        | some (out, some err) => some (out, some err)
        | some (out, none) => some (out.writeString "END)", none)

/-- Serializing a tree with calls of `serialize` nested at most `n` deep: the
call on the tree itself counts for one, and each call a CASE node makes on an
operand is made with one less. -/
def ExprTree.serializeWithin :
    Nat → ExprTree → statementType → sqlBuilder → List serializeOption → BoundedOutcome
  | 0, _, _, _, _ => none
  | _ + 1, .leaf e, statement, out, options => some (e.serialize statement out options)
  | _ + 1, .nilCase, _, out, _ => some (out, some "jet: Case Expression is nil. ")
  | n + 1, .caseNode expression when then_ els, statement, out, _ =>
    serializeCaseWithin (ExprTree.serializeWithin n) expression.toOption when.toList
      then_.toList els.toOption statement out

/-- The tree of `CASE(CASE().WHEN(a).THEN(b)).WHEN(c).THEN(CASE().WHEN(d).THEN(e)).ELSE(f)`
over token leaves, of depth 3. -/
def nestedCaseTree : ExprTree :=
  .caseNode
    (.some (.caseNode .none (.cons (.leaf (tokenLeaf "a")) .nil)
      (.cons (.leaf (tokenLeaf "b")) .nil) .none))
    (.cons (.leaf (tokenLeaf "c")) .nil)
    (.cons (.caseNode .none (.cons (.leaf (tokenLeaf "d")) .nil)
      (.cons (.leaf (tokenLeaf "e")) .nil) .none) .nil)
    (.some (.leaf (tokenLeaf "f")))

/-! ## Sequences of builder calls -/

/-- A call of one of the two appending builder methods. -/
inductive BuilderCall where
  | WHEN (condition : Expression)
  | THEN (result : Expression)

/-- Making one builder call on a node. -/
def caseOperatorImpl.call (c : caseOperatorImpl) : BuilderCall → caseOperatorImpl
  | .WHEN e => c.WHEN e
  | .THEN e => c.THEN e

/-- Making the calls one after the other, each on the node the previous one returned. -/
def caseOperatorImpl.calls (c : caseOperatorImpl) (ops : List BuilderCall) : caseOperatorImpl :=
  ops.foldl caseOperatorImpl.call c

/-- The arguments of the WHEN calls of a call sequence, in call order. -/
def whenArgs : List BuilderCall → List Expression
  | [] => []
  | .WHEN e :: rest => e :: whenArgs rest
  | .THEN _ :: rest => whenArgs rest

/-- The arguments of the THEN calls of a call sequence, in call order. -/
def thenArgs : List BuilderCall → List Expression
  | [] => []
  | .WHEN _ :: rest => thenArgs rest
  | .THEN e :: rest => e :: thenArgs rest

/-- The balanced call sequence `WHEN(w1).THEN(t1)...WHEN(wn).THEN(tn)`. -/
def pairedCalls : List Expression → List Expression → List BuilderCall
  | w :: ws, t :: ts => .WHEN w :: .THEN t :: pairedCalls ws ts
  | _, _ => []

/-! ## The relation model exercised by `table_test.go` -/

/-- Modelled from the spec: the column type is not among the sources.  A column
is "a named leaf expression, qualified by the table it belongs to; carries a
name and a result category". -/
structure Column where
  name : String
  category : ResultCategory
  tableName : String
  deriving DecidableEq, Repr

/-- Modelled from the spec: `IntegerColumn(name)`, a column of the integer
category that no table owns yet. -/
def IntegerColumn (name : String) : Column :=
  { name := name, category := ResultCategory.integer, tableName := "" }

/-- Modelled from the spec: the accessor `Name()` of a column. -/
def Column.Name (c : Column) : String := c.name

/-- Modelled from the spec: the join kind, "inner/left/right/full/cross". -/
inductive JoinType where
  | InnerJoin
  | LeftJoin
  | RightJoin
  | FullJoin
  | CrossJoin
  deriving DecidableEq, Repr

/-- Modelled from the spec: the relation types are not among the sources.  A
relation is a base table ("schema name, table name, and an ordered sequence of
columns") or a join ("left relation, right relation, join kind, and a boolean
condition expression (absent for cross join)"). -/
inductive ReadableTable where
  | table (schemaName name alias_ : String) (columns : List Column)
  | joinTable (lhs rhs : ReadableTable) (joinType : JoinType) (onCondition : Option Expression)

/-- Modelled from the spec: `NewTable(schema, name, alias, columns...)` "stores
schema/table names and binds each supplied column to this table". -/
def NewTable (schemaName name alias_ : String) (columns : List Column) : ReadableTable :=
  .table schemaName name alias_ (columns.map fun c => { c with tableName := name })

/-- Modelled from the spec: `NewJoinTable(left, right, joinKind, condition)`
"constructs a join relation". -/
def NewJoinTable (lhs rhs : ReadableTable) (joinType : JoinType)
    (onCondition : Option Expression) : ReadableTable :=
  .joinTable lhs rhs joinType onCondition

/-- Modelled from the spec: `Columns()`.  A table exposes its columns "in
exactly the order supplied"; a join's "column list is the concatenation, in
order, of the left relation's columns followed by the right relation's
columns". -/
def ReadableTable.Columns : ReadableTable → List Column
  | .table _ _ _ columns => columns
  | .joinTable lhs rhs _ _ => lhs.Columns ++ rhs.Columns

/-- Modelled from the spec: `SchemaName()`.  "Schema-name and table-name
accessors on a join forward to the left relation's schema name and return
empty for the join's own table name." -/
def ReadableTable.SchemaName : ReadableTable → String
  | .table schemaName _ _ _ => schemaName
  | .joinTable lhs _ _ _ => lhs.SchemaName

/-- Modelled from the spec: `TableName()`, empty for a join. -/
def ReadableTable.TableName : ReadableTable → String
  | .table _ name _ _ => name
  | .joinTable _ _ _ _ => ""

/-! ## Lemmas on runs of steps -/

theorem runSteps_append (statement : statementType) (xs ys : List RenderStep) (out : sqlBuilder) :
    runSteps statement (xs ++ ys) out =
      match runSteps statement xs out with
      | (out, none) => runSteps statement ys out
      | (out, some err) => (out, some err) := by
  induction xs generalizing out with
  | nil => simp [runSteps]
  | cons s rest ih =>
    simp only [List.cons_append, runSteps]
    rcases h : s.run statement out with ⟨b, _ | e⟩
    · simpa using ih b
    · simp

theorem appendSteps_append (statement : statementType) (xs ys : List RenderStep)
    (out : sqlBuilder) :
    appendSteps statement (xs ++ ys) out =
      appendSteps statement ys (appendSteps statement xs out) := by
  induction xs generalizing out with
  | nil => simp [appendSteps]
  | cons s rest ih => simp [appendSteps, ih]

/-- A run whose steps all succeed on the builder they meet ends in success, on
the builder that carrying out all the steps gives. -/
theorem runSteps_of_ok (statement : statementType) (steps : List RenderStep)
    (hok : ∀ s ∈ steps, ∀ b, (s.run statement b).2 = none) (out : sqlBuilder) :
    runSteps statement steps out = (appendSteps statement steps out, none) := by
  induction steps generalizing out with
  | nil => simp [runSteps, appendSteps]
  | cons s rest ih =>
    have hs := hok s (List.mem_cons_self _ _) out
    rcases h : s.run statement out with ⟨b, r⟩
    rw [h] at hs
    simp only at hs
    subst hs
    simp only [runSteps, appendSteps, h]
    exact ih (fun s' hs' => hok s' (List.mem_cons_of_mem _ hs')) b

/-- The loop of `serialize` carries out the steps of the pairs still to
visit, as long as `c.then` has an entry for each of them. -/
theorem serializeWhenThen_eq_runSteps (statement : statementType) (then_ : List Expression)
    (whens : List Expression) (i : Nat) (out : sqlBuilder)
    (hlen : (then_.drop i).length = whens.length) :
    caseOperatorImpl.serializeWhenThen statement then_ whens i out =
      runSteps statement (branchSteps whens (then_.drop i)) out := by
  induction whens generalizing i out with
  | nil =>
    cases h : then_.drop i <;> simp [caseOperatorImpl.serializeWhenThen, branchSteps, runSteps]
  | cons w ws ih =>
    have hi : i < then_.length := by
      simp only [List.length_drop, List.length_cons] at hlen
      omega
    have hdrop : then_.drop i = then_[i] :: then_.drop (i + 1) := List.drop_eq_getElem_cons hi
    have hlen2 : (then_.drop (i + 1)).length = ws.length := by
      simp only [List.length_drop, List.length_cons] at hlen ⊢
      omega
    rw [hdrop]
    simp only [caseOperatorImpl.serializeWhenThen, branchSteps, pairSteps, List.cons_append,
      List.nil_append, runSteps, RenderStep.run, List.getElem?_eq_getElem hi]
    rcases hw : w.serialize statement (out.writeString "WHEN") [serializeOption.noWrap]
      with ⟨b, _ | e⟩
    · simp only
      rcases ht : (then_[i]).serialize statement (b.writeString "THEN") [serializeOption.noWrap]
        with ⟨b2, _ | e2⟩
      · simp only
        exact ih (i + 1) b2 hlen2
      · simp
    · simp

/-- On a node with at least one pair and as many results as conditions,
`serialize` carries out the steps of the rendering in order and stops at the
first failure. -/
theorem serialize_eq_runSteps (c : caseOperatorImpl) (statement : statementType)
    (out : sqlBuilder) (options : List serializeOption)
    (hn : 1 ≤ c.when.length) (hlen : c.then_.length = c.when.length) :
    caseOperatorImpl.serialize (some c) statement out options =
      runSteps statement (caseRendering c) out := by
  have h1 : ¬ (c.when.length = 0 ∨ c.then_.length = 0) := by omega
  have h2 : ¬ (c.when.length ≠ c.then_.length) := by omega
  have hloop : ∀ b, caseOperatorImpl.serializeWhenThen statement c.then_ c.when 0 b =
      runSteps statement (branchSteps c.when c.then_) b := fun b => by
    simpa using serializeWhenThen_eq_runSteps statement c.then_ c.when 0 b (by simpa using hlen)
  simp only [caseOperatorImpl.serialize, caseRendering, runSteps_append, h1, h2, if_false, hloop]
  rcases c.expression with _ | e
  · simp only [subjectSteps, runSteps, RenderStep.run]
    rcases runSteps statement (branchSteps c.when c.then_) (out.writeString "(CASE")
      with ⟨b, _ | err⟩
    · rcases c.els with _ | d
      · simp [elseSteps, runSteps, RenderStep.run]
      · simp only [elseSteps, runSteps, RenderStep.run]
        rcases d.serialize statement (b.writeString "ELSE") [serializeOption.noWrap]
          with ⟨b2, _ | err2⟩ <;> simp
    · simp
  · simp only [subjectSteps, runSteps, RenderStep.run]
    rcases e.serialize statement (out.writeString "(CASE") [] with ⟨b0, _ | err0⟩
    · simp only
      rcases runSteps statement (branchSteps c.when c.then_) b0 with ⟨b, _ | err⟩
      · rcases c.els with _ | d
        · simp [elseSteps, runSteps, RenderStep.run]
        · simp only [elseSteps, runSteps, RenderStep.run]
          rcases d.serialize statement (b.writeString "ELSE") [serializeOption.noWrap]
            with ⟨b2, _ | err2⟩ <;> simp
      · simp
    · simp

theorem mem_branchSteps (ws ts : List Expression) (s : RenderStep)
    (hs : s ∈ branchSteps ws ts) :
    (∃ tok, s = .token tok) ∨ (∃ w ∈ ws, s = .operand w [serializeOption.noWrap])
      ∨ (∃ t ∈ ts, s = .operand t [serializeOption.noWrap]) := by
  induction ws generalizing ts with
  | nil => simp [branchSteps] at hs
  | cons w ws ih =>
    cases ts with
    | nil => simp [branchSteps] at hs
    | cons t ts =>
      simp only [branchSteps, pairSteps, List.cons_append, List.nil_append,
        List.mem_cons] at hs
      rcases hs with h | h | h | h | h
      · exact Or.inl ⟨_, h⟩
      · exact Or.inr (Or.inl ⟨w, List.mem_cons_self _ _, h⟩)
      · exact Or.inl ⟨_, h⟩
      · exact Or.inr (Or.inr ⟨t, List.mem_cons_self _ _, h⟩)
      · rcases ih ts h with h | ⟨w2, hw, h⟩ | ⟨t2, ht, h⟩
        · exact Or.inl h
        · exact Or.inr (Or.inl ⟨w2, List.mem_cons_of_mem _ hw, h⟩)
        · exact Or.inr (Or.inr ⟨t2, List.mem_cons_of_mem _ ht, h⟩)

/-- A run fails at a step that fails on the builder the steps before it,
all successful, have left; the steps after it are not carried out. -/
theorem runSteps_fail_at (statement : statementType) (pre post : List RenderStep)
    (s : RenderStep) (out b b2 : sqlBuilder) (err : error)
    (hpre : runSteps statement pre out = (b, none))
    (hs : s.run statement b = (b2, some err)) :
    runSteps statement (pre ++ s :: post) out = (b2, some err) := by
  rw [runSteps_append, hpre]
  simp only [runSteps, hs]

/-- A failed run failed at one of its steps, the steps before it having
succeeded. -/
theorem runSteps_fail_split (statement : statementType) (steps : List RenderStep)
    (out b2 : sqlBuilder) (err : error)
    (h : runSteps statement steps out = (b2, some err)) :
    ∃ pre s post b, steps = pre ++ s :: post ∧ runSteps statement pre out = (b, none)
      ∧ s.run statement b = (b2, some err) := by
  induction steps generalizing out with
  | nil => simp [runSteps] at h
  | cons s rest ih =>
    rcases hs : s.run statement out with ⟨b, _ | e⟩
    · simp only [runSteps, hs] at h
      obtain ⟨pre, s2, post, b3, hsplit, hpre, hfail⟩ := ih b h
      refine ⟨s :: pre, s2, post, b3, by simp [hsplit], ?_, hfail⟩
      simp only [runSteps, hs, hpre]
    · simp only [runSteps, hs, Prod.mk.injEq, Option.some.injEq] at h
      obtain ⟨hb, he⟩ := h
      subst hb he
      exact ⟨[], s, rest, out, rfl, rfl, hs⟩

/-- The node a sequence of WHEN and THEN calls builds: each sequence of the
node is extended by the arguments of its own calls, in call order. -/
theorem calls_eq (ops : List BuilderCall) (c : caseOperatorImpl) :
    c.calls ops =
      { c with when := c.when ++ whenArgs ops, then_ := c.then_ ++ thenArgs ops } := by
  induction ops generalizing c with
  | nil => simp [caseOperatorImpl.calls, whenArgs, thenArgs]
  | cons op rest ih =>
    have hstep : c.calls (op :: rest) = (c.call op).calls rest := rfl
    rw [hstep, ih]
    cases op <;>
      simp [caseOperatorImpl.call, caseOperatorImpl.WHEN, caseOperatorImpl.THEN, whenArgs,
        thenArgs]

theorem whenArgs_pairedCalls (ws ts : List Expression) (hlen : ts.length = ws.length) :
    whenArgs (pairedCalls ws ts) = ws := by
  induction ws generalizing ts with
  | nil => cases ts <;> simp [pairedCalls, whenArgs]
  | cons w ws ih =>
    cases ts with
    | nil => simp at hlen
    | cons t ts =>
      simp only [pairedCalls, whenArgs, List.cons.injEq, true_and]
      exact ih ts (by simpa using hlen)

theorem thenArgs_pairedCalls (ws ts : List Expression) (hlen : ts.length = ws.length) :
    thenArgs (pairedCalls ws ts) = ts := by
  induction ws generalizing ts with
  | nil =>
    cases ts with
    | nil => simp [pairedCalls, thenArgs]
    | cons t ts => simp at hlen
  | cons w ws ih =>
    cases ts with
    | nil => simp at hlen
    | cons t ts =>
      simp only [pairedCalls, thenArgs, List.cons.injEq, true_and]
      exact ih ts (by simpa using hlen)

/-- What `serialize` has done when it reaches the two length checks: the token
"(CASE" and the subject, if there is one. -/
theorem runSteps_subject (statement : statementType) (expression : Option Expression)
    (out : sqlBuilder) :
    runSteps statement ([.token "(CASE"] ++ subjectSteps expression) out =
      match expression with
      | some e => e.serialize statement (out.writeString "(CASE") []
      | none => (out.writeString "(CASE", none) := by
  rcases expression with _ | e
  · rfl
  · simp only [subjectSteps, List.singleton_append, runSteps, RenderStep.run]
    rcases e.serialize statement (out.writeString "(CASE") [] with ⟨b, _ | err⟩ <;> rfl

/-- A node that fails one of the two length checks, its subject absent or
serialized with success: the error is that of the check, and the builder is
left as the subject left it. -/
theorem serialize_of_check_failed (c : caseOperatorImpl) (statement : statementType)
    (out b : sqlBuilder) (options : List serializeOption)
    (hsubject : runSteps statement ([.token "(CASE"] ++ subjectSteps c.expression) out
      = (b, none))
    (hfail : c.when.length = 0 ∨ c.then_.length = 0 ∨ c.when.length ≠ c.then_.length) :
    caseOperatorImpl.serialize (some c) statement out options =
      (b, some (if c.when.length = 0 ∨ c.then_.length = 0 then
        "jet: Invalid case Statement. There should be at least one when/then Expression pair. "
        else "jet: When and then Expression count mismatch. ")) := by
  rw [runSteps_subject] at hsubject
  simp only [caseOperatorImpl.serialize, hsubject]
  by_cases h1 : c.when.length = 0 ∨ c.then_.length = 0
  · simp only [if_pos h1]
  · have h2 : c.when.length ≠ c.then_.length := by
      rcases hfail with h | h | h
      · exact absurd (Or.inl h) h1
      · exact absurd (Or.inr h) h1
      · exact h
    simp only [if_neg h1, if_pos h2]

/-- A node that passes the two length checks, its subject absent or serialized
with success, goes on with the pairs, the default and the closing token. -/
theorem serialize_after_subject (c : caseOperatorImpl) (statement : statementType)
    (out b : sqlBuilder) (options : List serializeOption)
    (hn : 1 ≤ c.when.length) (hlen : c.then_.length = c.when.length)
    (hsubject : runSteps statement ([.token "(CASE"] ++ subjectSteps c.expression) out
      = (b, none)) :
    caseOperatorImpl.serialize (some c) statement out options =
      runSteps statement (branchSteps c.when c.then_ ++ elseSteps c.els ++ [.token "END)"]) b := by
  rw [serialize_eq_runSteps c statement out options hn hlen]
  simp only [caseRendering]
  rw [List.append_assoc ([RenderStep.token "(CASE"] ++ subjectSteps c.expression),
    List.append_assoc ([RenderStep.token "(CASE"] ++ subjectSteps c.expression),
    runSteps_append, hsubject, List.append_assoc]

/-- The subject of a node, when it is absent or serializes with success on the
builder it meets, leaves some builder and no error. -/
theorem runSteps_subject_ok (statement : statementType) (expression : Option Expression)
    (out : sqlBuilder)
    (hsubject : ∀ e, expression = some e →
      (e.serialize statement (out.writeString "(CASE") []).2 = none) :
    ∃ b, runSteps statement ([.token "(CASE"] ++ subjectSteps expression) out = (b, none) := by
  rw [runSteps_subject]
  rcases expression with _ | e
  · exact ⟨_, rfl⟩
  · have h := hsubject e rfl
    rcases hr : e.serialize statement (out.writeString "(CASE") [] with ⟨b, r⟩
    rw [hr] at h
    simp only at h
    subst h
    exact ⟨b, hr⟩

/-- A failed run has a step that failed with the error of the run. -/
theorem runSteps_fail_mem (statement : statementType) (steps : List RenderStep)
    (out b2 : sqlBuilder) (err : error)
    (h : runSteps statement steps out = (b2, some err)) :
    ∃ s ∈ steps, ∃ b, s.run statement b = (b2, some err) := by
  obtain ⟨pre, s, post, b, hsplit, _, hs⟩ := runSteps_fail_split statement steps out b2 err h
  exact ⟨s, by simp [hsplit], b, hs⟩

/-- In a successful run every step has succeeded on the builder it met. -/
theorem runSteps_ok_mem (statement : statementType) (steps : List RenderStep)
    (out b2 : sqlBuilder) (h : runSteps statement steps out = (b2, none)) :
    ∀ s ∈ steps, ∃ b, (s.run statement b).2 = none := by
  induction steps generalizing out with
  | nil => simp
  | cons s rest ih =>
    rcases hs : s.run statement out with ⟨b, _ | e⟩
    · simp only [runSteps, hs] at h
      intro s2 hs2
      rcases List.mem_cons.mp hs2 with rfl | hmem
      · exact ⟨out, by rw [hs]⟩
      · exact ih b h s2 hmem
    · simp [runSteps, hs] at h

theorem mem_branchSteps_when (ws ts : List Expression) (hlen : ts.length = ws.length)
    (w : Expression) (hw : w ∈ ws) :
    RenderStep.operand w [serializeOption.noWrap] ∈ branchSteps ws ts := by
  induction ws generalizing ts with
  | nil => simp at hw
  | cons w0 ws ih =>
    cases ts with
    | nil => simp at hlen
    | cons t ts =>
      simp only [branchSteps, pairSteps, List.cons_append, List.nil_append, List.mem_cons]
      rcases List.mem_cons.mp hw with rfl | hmem
      · exact Or.inr (Or.inl rfl)
      · exact Or.inr (Or.inr (Or.inr (Or.inr (ih ts (by simpa using hlen) hmem))))

theorem mem_branchSteps_then (ws ts : List Expression) (hlen : ts.length = ws.length)
    (t : Expression) (ht : t ∈ ts) :
    RenderStep.operand t [serializeOption.noWrap] ∈ branchSteps ws ts := by
  induction ws generalizing ts with
  | nil =>
    cases ts with
    | nil => simp at ht
    | cons t0 ts => simp at hlen
  | cons w0 ws ih =>
    cases ts with
    | nil => simp at ht
    | cons t0 ts =>
      simp only [branchSteps, pairSteps, List.cons_append, List.nil_append, List.mem_cons]
      rcases List.mem_cons.mp ht with rfl | hmem
      · exact Or.inr (Or.inr (Or.inr (Or.inl rfl)))
      · exact Or.inr (Or.inr (Or.inr (Or.inr (ih ts (by simpa using hlen) hmem))))

/-- A node that fails one of the two length checks is never serialized with
success, whatever its subject does. -/
theorem serialize_error_of_check_failed (c : caseOperatorImpl) (statement : statementType)
    (out : sqlBuilder) (options : List serializeOption)
    (hfail : c.when.length = 0 ∨ c.then_.length = 0 ∨ c.when.length ≠ c.then_.length) :
    ∃ err, (caseOperatorImpl.serialize (some c) statement out options).2 = some err := by
  rcases hr : runSteps statement ([.token "(CASE"] ++ subjectSteps c.expression) out
    with ⟨b, _ | err⟩
  · rw [serialize_of_check_failed c statement out b options hr hfail]
    exact ⟨_, rfl⟩
  · rw [runSteps_subject] at hr
    refine ⟨err, ?_⟩
    simp only [caseOperatorImpl.serialize, hr]

/-- A node that passes the two length checks and whose operands never fail is
serialized with success, all the steps of its rendering carried out. -/
theorem serialize_of_operands_ok (c : caseOperatorImpl) (statement : statementType)
    (out : sqlBuilder) (options : List serializeOption)
    (hn : 1 ≤ c.when.length) (hlen : c.then_.length = c.when.length)
    (hsubject : ∀ e, c.expression = some e → ∀ b, (e.serialize statement b []).2 = none)
    (hwhen : ∀ e ∈ c.when, ∀ b, (e.serialize statement b [serializeOption.noWrap]).2 = none)
    (hthen : ∀ e ∈ c.then_, ∀ b, (e.serialize statement b [serializeOption.noWrap]).2 = none)
    (hels : ∀ e, c.els = some e →
      ∀ b, (e.serialize statement b [serializeOption.noWrap]).2 = none) :
    caseOperatorImpl.serialize (some c) statement out options =
      (appendSteps statement (caseRendering c) out, none) := by
  rw [serialize_eq_runSteps c statement out options hn hlen]
  apply runSteps_of_ok
  intro s hs b
  simp only [caseRendering, List.mem_append, List.mem_singleton] at hs
  rcases hs with (((hs | hs) | hs) | hs) | hs
  · subst hs; rfl
  · rcases hc : c.expression with _ | e
    · simp [hc, subjectSteps] at hs
    · simp only [hc, subjectSteps, List.mem_singleton] at hs
      subst hs
      exact hsubject e hc b
  · rcases mem_branchSteps _ _ s hs with ⟨tok, h⟩ | ⟨w, hw, h⟩ | ⟨t, ht, h⟩
    · subst h; rfl
    · subst h; exact hwhen w hw b
    · subst h; exact hthen t ht b
  · rcases hc : c.els with _ | e
    · simp [hc, elseSteps] at hs
    · simp only [hc, elseSteps, List.mem_cons, List.mem_singleton, List.not_mem_nil,
        or_false] at hs
      rcases hs with hs | hs
      · subst hs; rfl
      · subst hs; exact hels e hc b
  · subst hs; rfl

/-- The two length checks of a node whose subject is absent or serializes
without error and none of whose other operands fails with the count-mismatch
error: which error comes out when. -/
theorem serialize_count_mismatch_iff (c : caseOperatorImpl) (statement : statementType)
    (out : sqlBuilder) (options : List serializeOption)
    (hsubject : ∀ e, c.expression = some e →
      (e.serialize statement (out.writeString "(CASE") []).2 = none)
    (hoperands : ∀ e, (e ∈ c.when ∨ e ∈ c.then_ ∨ c.els = some e) →
      ∀ b, (e.serialize statement b [serializeOption.noWrap]).2 ≠
        some "jet: When and then Expression count mismatch. ") :
    ((c.when = [] ∨ c.then_ = []) →
        (caseOperatorImpl.serialize (some c) statement out options).2 = some
          "jet: Invalid case Statement. There should be at least one when/then Expression pair. ")
      ∧ ((caseOperatorImpl.serialize (some c) statement out options).2 =
            some "jet: When and then Expression count mismatch. "
          ↔ c.when ≠ [] ∧ c.then_ ≠ [] ∧ c.when.length ≠ c.then_.length) := by
  obtain ⟨b, hb⟩ := runSteps_subject_ok statement c.expression out hsubject
  have hstr : ("jet: Invalid case Statement. There should be at least one when/then Expression pair. " : String)
      ≠ "jet: When and then Expression count mismatch. " := by decide
  by_cases hfail : c.when.length = 0 ∨ c.then_.length = 0 ∨ c.when.length ≠ c.then_.length
  · rw [serialize_of_check_failed c statement out b options hb hfail]
    by_cases h1 : c.when.length = 0 ∨ c.then_.length = 0
    · simp only [if_pos h1, Option.some.injEq, true_and, implies_true]
      constructor
      · intro h
        exact absurd h hstr
      · rintro ⟨hw, ht, -⟩
        rcases h1 with h | h
        · exact absurd (List.length_eq_zero.mp h) hw
        · exact absurd (List.length_eq_zero.mp h) ht
    · simp only [if_neg h1, true_iff]
      have h2 : c.when.length ≠ c.then_.length := by
        rcases hfail with h | h | h
        · exact absurd (Or.inl h) h1
        · exact absurd (Or.inr h) h1
        · exact h
      refine ⟨?_, ?_, ?_, h2⟩
      · rintro (h | h)
        · exact absurd (Or.inl (by simp [h])) h1
        · exact absurd (Or.inr (by simp [h])) h1
      · intro h
        exact h1 (Or.inl (by simp [h]))
      · intro h
        exact h1 (Or.inr (by simp [h]))
  · have hn : 1 ≤ c.when.length := by omega
    have hlen : c.then_.length = c.when.length := by omega
    constructor
    · rintro (h | h)
      · rw [h] at hn
        simp at hn
      · rw [h] at hlen
        simp only [List.length_nil] at hlen
        omega
    · constructor
      · intro h
        exfalso
        rw [serialize_after_subject c statement out b options hn hlen hb] at h
        rcases hr : runSteps statement
            (branchSteps c.when c.then_ ++ elseSteps c.els ++ [.token "END)"]) b with ⟨b2, r⟩
        rw [hr] at h
        simp only at h
        subst h
        obtain ⟨s, hs, b3, hrun⟩ := runSteps_fail_mem statement _ b b2 _ hr
        simp only [List.mem_append, List.mem_singleton] at hs
        rcases hs with (hs | hs) | hs
        · rcases mem_branchSteps _ _ s hs with ⟨tok, h⟩ | ⟨w, hw, h⟩ | ⟨t, ht, h⟩
          · subst h
            simp [RenderStep.run] at hrun
          · subst h
            exact hoperands w (Or.inl hw) b3 (by simp only [RenderStep.run] at hrun; rw [hrun])
          · subst h
            exact hoperands t (Or.inr (Or.inl ht)) b3
              (by simp only [RenderStep.run] at hrun; rw [hrun])
        · rcases hc : c.els with _ | d
          · simp [hc, elseSteps] at hs
          · simp only [hc, elseSteps, List.mem_cons, List.mem_singleton, List.not_mem_nil,
              or_false] at hs
            rcases hs with hs | hs
            · subst hs
              simp [RenderStep.run] at hrun
            · subst hs
              exact hoperands d (Or.inr (Or.inr hc)) b3
                (by simp only [RenderStep.run] at hrun; rw [hrun])
        · subst hs
          simp [RenderStep.run] at hrun
      · rintro ⟨-, -, h⟩
        exact absurd hlen.symm h

/-! ## Lemmas on the heap -/

/-- The loop on the heap leaves the node as it was, and does to the builder
what the loop of `serialize` does. -/
theorem serializeWhenThenOnHeap_eq (statement : statementType) (whens : List Expression)
    (i : Nat) (h : Heap) :
    caseOperatorImpl.serializeWhenThenOnHeap statement whens i h =
      (⟨h.node, (caseOperatorImpl.serializeWhenThen statement h.node.then_ whens i h.out).1⟩,
        (caseOperatorImpl.serializeWhenThen statement h.node.then_ whens i h.out).2) := by
  induction whens generalizing i h with
  | nil => rfl
  | cons w ws ih =>
    simp only [caseOperatorImpl.serializeWhenThenOnHeap, caseOperatorImpl.serializeWhenThen,
      Heap.serializeOperand, Heap.writeString]
    rcases hw : w.serialize statement (h.out.writeString "WHEN") [serializeOption.noWrap]
      with ⟨b, _ | e⟩
    · simp only
      rcases ht : h.node.then_[i]? with _ | t
      · rfl
      · simp only
        rcases hts : t.serialize statement (b.writeString "THEN") [serializeOption.noWrap]
          with ⟨b2, _ | e2⟩
        · simp only
          exact ih (i + 1) ⟨h.node, b2⟩
        · rfl
    · rfl

/-- The body of `serialize` on the heap leaves the node as it was, and does to
the builder what `serialize` does. -/
theorem serializeOnHeap_eq (statement : statementType) (options : List serializeOption)
    (h : Heap) :
    caseOperatorImpl.serializeOnHeap statement options h =
      (⟨h.node, (caseOperatorImpl.serialize (some h.node) statement h.out options).1⟩,
        (caseOperatorImpl.serialize (some h.node) statement h.out options).2) := by
  have hrest : ∀ b : sqlBuilder,
      (if h.node.when.length = 0 ∨ h.node.then_.length = 0 then
        ((⟨h.node, b⟩ : Heap), some
          "jet: Invalid case Statement. There should be at least one when/then Expression pair. ")
      else if h.node.when.length ≠ h.node.then_.length then
        (⟨h.node, b⟩, some "jet: When and then Expression count mismatch. ")
      else
        match caseOperatorImpl.serializeWhenThenOnHeap statement h.node.when 0 ⟨h.node, b⟩ with
        | (h, some err) => (h, some err)
        | (h, none) =>
          match (match h.node.els with
                 | some els =>
                   (h.writeString "ELSE").serializeOperand els statement
                     [serializeOption.noWrap]
                 | none => (h, none)) with
          | (h, some err) => (h, some err)
          | (h, none) => (h.writeString "END)", none)) =
      (⟨h.node,
        (if h.node.when.length = 0 ∨ h.node.then_.length = 0 then
          (b, some
            "jet: Invalid case Statement. There should be at least one when/then Expression pair. ")
        else if h.node.when.length ≠ h.node.then_.length then
          (b, some "jet: When and then Expression count mismatch. ")
        else
          match caseOperatorImpl.serializeWhenThen statement h.node.then_ h.node.when 0 b with
          | (out, some err) => (out, some err)
          | (out, none) =>
            match (match h.node.els with
                   | some els =>
                     els.serialize statement (out.writeString "ELSE") [serializeOption.noWrap]
                   | none => (out, none)) with
            | (out, some err) => (out, some err)
            | (out, none) => (out.writeString "END)", none)).1⟩,
        (if h.node.when.length = 0 ∨ h.node.then_.length = 0 then
          (b, some
            "jet: Invalid case Statement. There should be at least one when/then Expression pair. ")
        else if h.node.when.length ≠ h.node.then_.length then
          (b, some "jet: When and then Expression count mismatch. ")
        else
          match caseOperatorImpl.serializeWhenThen statement h.node.then_ h.node.when 0 b with
          | (out, some err) => (out, some err)
          | (out, none) =>
            match (match h.node.els with
                   | some els =>
                     els.serialize statement (out.writeString "ELSE") [serializeOption.noWrap]
                   | none => (out, none)) with
            | (out, some err) => (out, some err)
            | (out, none) => (out.writeString "END)", none)).2) := by
    intro b
    by_cases h1 : h.node.when.length = 0 ∨ h.node.then_.length = 0
    · simp only [if_pos h1]
    · simp only [if_neg h1]
      by_cases h2 : h.node.when.length ≠ h.node.then_.length
      · simp only [if_pos h2]
      · simp only [if_neg h2, serializeWhenThenOnHeap_eq]
        rcases hl : caseOperatorImpl.serializeWhenThen statement h.node.then_ h.node.when 0 b
          with ⟨b2, _ | err2⟩
        · simp only
          rcases hd : h.node.els with _ | d
          · rfl
          · simp only [Heap.serializeOperand, Heap.writeString]
            rcases hds : d.serialize statement (b2.writeString "ELSE") [serializeOption.noWrap]
              with ⟨b3, _ | err3⟩ <;> rfl
        · rfl
  simp only [caseOperatorImpl.serializeOnHeap, caseOperatorImpl.serialize, Heap.writeString]
  rcases hc : h.node.expression with _ | e
  · exact hrest _
  · simp only [Heap.serializeOperand]
    rcases he : e.serialize statement (h.out.writeString "(CASE") [] with ⟨b, _ | err⟩
    · exact hrest b
    · rfl

/-- A call of `serialize` hands the receiver back as it was, and does to the
builder what `serialize` does. -/
theorem serializeCall_eq (statement : statementType) (options : List serializeOption)
    (c : Option caseOperatorImpl) (out : sqlBuilder) :
    caseOperatorImpl.serializeCall statement options c out =
      ((c, (caseOperatorImpl.serialize c statement out options).1),
        (caseOperatorImpl.serialize c statement out options).2) := by
  rcases c with _ | c
  · rfl
  · simp only [caseOperatorImpl.serializeCall, serializeOnHeap_eq]

/-! ## Lemmas on finite trees -/

theorem TreeList.toExpressions_eq :
    (l : TreeList) → l.toExpressions = l.toList.map ExprTree.toExpression
  | .nil => rfl
  | .cons head tail => by
    simp only [TreeList.toExpressions, TreeList.toList, List.map_cons,
      TreeList.toExpressions_eq tail]

theorem OptTree.toExpression_eq (o : OptTree) :
    o.toExpression = o.toOption.map ExprTree.toExpression := by
  cases o <;> rfl

theorem TreeList.depth_le_of_mem_toList :
    (l : TreeList) → ∀ x ∈ l.toList, x.depth ≤ l.depth
  | .nil => by simp [TreeList.toList]
  | .cons head tail => by
    intro x hx
    simp only [TreeList.toList, List.mem_cons] at hx
    simp only [TreeList.depth]
    rcases hx with rfl | hx
    · exact Nat.le_max_left _ _
    · exact Nat.le_trans (TreeList.depth_le_of_mem_toList tail x hx) (Nat.le_max_right _ _)

theorem OptTree.depth_le_of_toOption (o : OptTree) (x : ExprTree)
    (hx : o.toOption = Option.some x) : x.depth ≤ o.depth := by
  cases o with
  | none => simp [OptTree.toOption] at hx
  | some e =>
    simp only [OptTree.toOption, Option.some.injEq] at hx
    subst hx
    exact Nat.le_refl _

/-- The loop on trees, when `ser` serializes each operand as the expression
it stands for, is the loop of `serialize` on these expressions. -/
theorem serializeWhenThenWithin_eq
    (ser : ExprTree → statementType → sqlBuilder → List serializeOption → BoundedOutcome)
    (statement : statementType) (then_ whens : List ExprTree) (i : Nat) (out : sqlBuilder)
    (hser : ∀ x, (x ∈ whens ∨ x ∈ then_) → ∀ b o,
      ser x statement b o = some (x.toExpression.serialize statement b o)) :
    serializeWhenThenWithin ser statement then_ whens i out =
      some (caseOperatorImpl.serializeWhenThen statement (then_.map ExprTree.toExpression)
        (whens.map ExprTree.toExpression) i out) := by
  induction whens generalizing i out with
  | nil => rfl
  | cons w ws ih =>
    have ih2 := fun i out => ih i out (fun x hx => hser x (hx.elim
      (fun h => Or.inl (List.mem_cons_of_mem _ h)) Or.inr))
    simp only [serializeWhenThenWithin, caseOperatorImpl.serializeWhenThen, List.map_cons,
      hser w (Or.inl (List.mem_cons_self _ _)), List.getElem?_map]
    rcases hw : w.toExpression.serialize statement (out.writeString "WHEN")
      [serializeOption.noWrap] with ⟨b, _ | e⟩
    · simp only
      rcases ht : then_[i]? with _ | t
      · rfl
      · simp only [Option.map_some', hser t (Or.inr (List.getElem?_mem ht))]
        rcases hts : t.toExpression.serialize statement (b.writeString "THEN")
          [serializeOption.noWrap] with ⟨b2, _ | e2⟩
        · exact ih2 (i + 1) b2
        · rfl
    · rfl

/-- The body of `serialize` on trees, when `ser` serializes each operand as the
expression it stands for, is `serialize` on the node of these expressions. -/
theorem serializeCaseWithin_eq
    (ser : ExprTree → statementType → sqlBuilder → List serializeOption → BoundedOutcome)
    (expression : Option ExprTree) (whens then_ : List ExprTree) (els : Option ExprTree)
    (statement : statementType) (out : sqlBuilder) (options : List serializeOption)
    (hser : ∀ x, (expression = some x ∨ x ∈ whens ∨ x ∈ then_ ∨ els = some x) → ∀ b o,
      ser x statement b o = some (x.toExpression.serialize statement b o)) :
    serializeCaseWithin ser expression whens then_ els statement out =
      some (caseOperatorImpl.serialize (some
        { expression := expression.map ExprTree.toExpression
          when := whens.map ExprTree.toExpression
          then_ := then_.map ExprTree.toExpression
          els := els.map ExprTree.toExpression }) statement out options) := by
  have hloop := fun b => serializeWhenThenWithin_eq ser statement then_ whens 0 b
    (fun x hx => hser x (hx.elim (fun h => Or.inr (Or.inl h))
      (fun h => Or.inr (Or.inr (Or.inl h)))))
  have hrest : ∀ b,
      (if whens.length = 0 ∨ then_.length = 0 then
        some (b, some
          "jet: Invalid case Statement. There should be at least one when/then Expression pair. ")
      else if whens.length ≠ then_.length then
        some (b, some "jet: When and then Expression count mismatch. ")
      else
        match serializeWhenThenWithin ser statement then_ whens 0 b with
        | none => none
        | some (out, some err) => some (out, some err)
        | some (out, none) =>
          match (match els with
                 | some els =>
                   ser els statement (out.writeString "ELSE") [serializeOption.noWrap]
                 | none => some (out, none)) with
          | none => none
          | some (out, some err) => some (out, some err)
          | some (out, none) => some (out.writeString "END)", none)) =
      some (if whens.length = 0 ∨ then_.length = 0 then
        (b, some
          "jet: Invalid case Statement. There should be at least one when/then Expression pair. ")
      else if whens.length ≠ then_.length then
        (b, some "jet: When and then Expression count mismatch. ")
      else
        match caseOperatorImpl.serializeWhenThen statement (then_.map ExprTree.toExpression)
          (whens.map ExprTree.toExpression) 0 b with
        | (out, some err) => (out, some err)
        | (out, none) =>
          match (match els.map ExprTree.toExpression with
                 | some els =>
                   els.serialize statement (out.writeString "ELSE") [serializeOption.noWrap]
                 | none => (out, none)) with
          | (out, some err) => (out, some err)
          | (out, none) => (out.writeString "END)", none)) := by
    intro b
    by_cases h1 : whens.length = 0 ∨ then_.length = 0
    · simp only [if_pos h1]
    · simp only [if_neg h1]
      by_cases h2 : whens.length ≠ then_.length
      · simp only [if_pos h2]
      · simp only [if_neg h2, hloop]
        rcases hl : caseOperatorImpl.serializeWhenThen statement
          (then_.map ExprTree.toExpression) (whens.map ExprTree.toExpression) 0 b
          with ⟨b2, _ | err2⟩
        · simp only
          rcases els with _ | d
          · rfl
          · simp only [Option.map_some', hser d (Or.inr (Or.inr (Or.inr rfl)))]
            rcases hd : d.toExpression.serialize statement (b2.writeString "ELSE")
              [serializeOption.noWrap] with ⟨b3, _ | err3⟩ <;> rfl
        · rfl
  simp only [serializeCaseWithin, caseOperatorImpl.serialize, List.length_map]
  rcases expression with _ | e
  · simp only [Option.map_none']
    exact hrest _
  · simp only [Option.map_some', hser e (Or.inl rfl)]
    rcases he : e.toExpression.serialize statement (out.writeString "(CASE") []
      with ⟨b, _ | err⟩
    · exact hrest b
    · rfl

/-- Calls nested as deep as the tree is deep are enough: with a bound not below
the depth of the tree, the bounded serialization returns, and returns what
`serialize` returns on the expression the tree stands for. -/
theorem serializeWithin_eq (n : Nat) :
    ∀ (t : ExprTree), t.depth ≤ n →
      ∀ (statement : statementType) (out : sqlBuilder) (options : List serializeOption),
        t.serializeWithin n statement out options =
          some (t.toExpression.serialize statement out options) := by
  induction n with
  | zero =>
    intro t ht
    cases t <;> simp [ExprTree.depth] at ht
  | succ n ih =>
    intro t ht statement out options
    cases t with
    | leaf e => rfl
    | nilCase => rfl
    | caseNode expression when then_ els =>
      simp only [ExprTree.depth, Nat.add_le_add_iff_right, Nat.max_le] at ht
      obtain ⟨⟨hexp, hwhen⟩, hthen, hels⟩ := ht
      simp only [ExprTree.serializeWithin, ExprTree.toExpression, caseOperatorImpl.toExpression,
        TreeList.toExpressions_eq, OptTree.toExpression_eq]
      apply serializeCaseWithin_eq
      intro x hx b o
      apply ih
      rcases hx with hx | hx | hx | hx
      · exact Nat.le_trans (OptTree.depth_le_of_toOption _ x hx) hexp
      · exact Nat.le_trans (TreeList.depth_le_of_mem_toList _ x hx) hwhen
      · exact Nat.le_trans (TreeList.depth_le_of_mem_toList _ x hx) hthen
      · exact Nat.le_trans (OptTree.depth_le_of_toOption _ x hx) hels

/-! ## The claims -/

/-- C1. A non-nil CASE node with n >= 1 conditions and exactly n results whose
subject, conditions, results and default all serialize without error is
serialized with success, and the builder is left as carrying out, in this
order, the token "(CASE", the subject with default options (if any), for each
pair in call order "WHEN", the condition no-wrap, "THEN", the result no-wrap,
then "ELSE" and the default no-wrap (if ELSE was set) and the token "END)"
leaves it.  For CASE().WHEN(c1).THEN(r1).WHEN(c2).THEN(r2).ELSE(d) these steps
are (CASE WHEN c1 THEN r1 WHEN c2 THEN r2 ELSE d END), with no subject. -/
theorem case_serialize_renders (c : caseOperatorImpl) (statement : statementType)
    (out : sqlBuilder) (options : List serializeOption)
    (hn : 1 ≤ c.when.length) (hlen : c.then_.length = c.when.length)
    (hsubject : ∀ e, c.expression = some e → ∀ b, (e.serialize statement b []).2 = none)
    (hwhen : ∀ e ∈ c.when, ∀ b, (e.serialize statement b [serializeOption.noWrap]).2 = none)
    (hthen : ∀ e ∈ c.then_, ∀ b, (e.serialize statement b [serializeOption.noWrap]).2 = none)
    (hels : ∀ e, c.els = some e →
      ∀ b, (e.serialize statement b [serializeOption.noWrap]).2 = none) :
    caseOperatorImpl.serialize (some c) statement out options =
        (appendSteps statement
          ([.token "(CASE"] ++ subjectSteps c.expression ++ branchSteps c.when c.then_
            ++ elseSteps c.els ++ [.token "END)"]) out, none)
      ∧ ∀ c1 r1 c2 r2 d : Expression,
          caseRendering (((((CASE []).WHEN c1).THEN r1).WHEN c2).THEN r2 |>.ELSE d) =
            [.token "(CASE",
             .token "WHEN", .operand c1 [serializeOption.noWrap],
             .token "THEN", .operand r1 [serializeOption.noWrap],
             .token "WHEN", .operand c2 [serializeOption.noWrap],
             .token "THEN", .operand r2 [serializeOption.noWrap],
             .token "ELSE", .operand d [serializeOption.noWrap],
             .token "END)"] := by
  refine ⟨?_, fun c1 r1 c2 r2 d => rfl⟩
  rw [serialize_eq_runSteps c statement out options hn hlen]
  apply runSteps_of_ok
  intro s hs b
  simp only [caseRendering, List.mem_append, List.mem_singleton] at hs
  rcases hs with (((hs | hs) | hs) | hs) | hs
  · subst hs; rfl
  · rcases hc : c.expression with _ | e
    · simp [hc, subjectSteps] at hs
    · simp only [hc, subjectSteps, List.mem_singleton] at hs
      subst hs
      exact hsubject e hc b
  · rcases mem_branchSteps _ _ s hs with ⟨tok, h⟩ | ⟨w, hw, h⟩ | ⟨t, ht, h⟩
    · subst h; rfl
    · subst h; exact hwhen w hw b
    · subst h; exact hthen t ht b
  · rcases hc : c.els with _ | e
    · simp [hc, elseSteps] at hs
    · simp only [hc, elseSteps, List.mem_cons, List.mem_singleton, List.not_mem_nil,
        or_false] at hs
      rcases hs with hs | hs
      · subst hs; rfl
      · subst hs; exact hels e hc b
  · subst hs; rfl

/-- The instance of C1 at CASE().WHEN(c1).THEN(r1).WHEN(c2).THEN(r2).ELSE(d)
over token leaves, serialized into an empty builder. -/
theorem case_serialize_renders_witness :
    1 ≤ twoBranchCase.when.length
      ∧ twoBranchCase.then_.length = twoBranchCase.when.length
      ∧ caseOperatorImpl.serialize (some twoBranchCase) statementType.selectStatement ⟨[]⟩ [] =
          (⟨["(CASE", "WHEN", "c1", "THEN", "r1", "WHEN", "c2", "THEN", "r2",
             "ELSE", "d", "END)"]⟩, none) :=
  ⟨by decide, by decide,
    (case_serialize_renders twoBranchCase statementType.selectStatement ⟨[]⟩ []
      (by decide) (by decide)
      (by intro e he; simp [twoBranchCase, CASE, caseOperatorImpl.WHEN, caseOperatorImpl.THEN,
            caseOperatorImpl.ELSE] at he)
      (by
        intro e he b
        simp only [twoBranchCase, CASE, caseOperatorImpl.WHEN, caseOperatorImpl.THEN,
          caseOperatorImpl.ELSE, List.nil_append, List.cons_append, List.mem_cons,
          List.mem_singleton, List.not_mem_nil, or_false] at he
        rcases he with rfl | rfl <;> rfl)
      (by
        intro e he b
        simp only [twoBranchCase, CASE, caseOperatorImpl.WHEN, caseOperatorImpl.THEN,
          caseOperatorImpl.ELSE, List.nil_append, List.cons_append, List.mem_cons,
          List.mem_singleton, List.not_mem_nil, or_false] at he
        rcases he with rfl | rfl <;> rfl)
      (by
        intro e he b
        simp only [twoBranchCase, CASE, caseOperatorImpl.WHEN, caseOperatorImpl.THEN,
          caseOperatorImpl.ELSE, Option.some.injEq] at he
        subst he
        rfl)).1.trans rfl⟩

/-- C2, as the code has it.  A CASE node with exactly 2 conditions and 1 result
whose subject is absent or serializes without error fails with the
count-mismatch error, whether or not ELSE is set. -/
theorem case_count_mismatch (c : caseOperatorImpl) (statement : statementType)
    (out : sqlBuilder) (options : List serializeOption)
    (hwhen : c.when.length = 2) (hthen : c.then_.length = 1)
    (hsubject : ∀ e, c.expression = some e →
      (e.serialize statement (out.writeString "(CASE") []).2 = none) :
    (caseOperatorImpl.serialize (some c) statement out options).2 =
      some "jet: When and then Expression count mismatch. " := by
  have h1 : ¬ (c.when.length = 0 ∨ c.then_.length = 0) := by omega
  have h2 : c.when.length ≠ c.then_.length := by omega
  rcases hc : c.expression with _ | e
  · simp only [caseOperatorImpl.serialize, hc, if_neg h1, if_pos h2]
  · have hs := hsubject e hc
    rcases hr : e.serialize statement (out.writeString "(CASE") [] with ⟨b, r⟩
    rw [hr] at hs
    simp only at hs
    subst hs
    simp only [caseOperatorImpl.serialize, hc, hr, if_neg h1, if_pos h2]

/-- The instance of the amended C2 at CASE(s).WHEN(w1).WHEN(w2).THEN(t1).ELSE(d)
with a subject that serializes. -/
theorem case_count_mismatch_witness :
    (unbalancedCase (tokenLeaf "s")).when.length = 2
      ∧ (unbalancedCase (tokenLeaf "s")).then_.length = 1
      ∧ (caseOperatorImpl.serialize (some (unbalancedCase (tokenLeaf "s")))
          statementType.selectStatement ⟨[]⟩ []).2 =
          some "jet: When and then Expression count mismatch. " :=
  ⟨by decide, by decide,
    case_count_mismatch (unbalancedCase (tokenLeaf "s")) statementType.selectStatement ⟨[]⟩ []
      (by decide) (by decide)
      (by
        intro e he
        simp only [unbalancedCase, CASE, caseOperatorImpl.WHEN, caseOperatorImpl.THEN,
          caseOperatorImpl.ELSE, Option.some.injEq] at he
        subst he
        rfl)⟩

/-- C2 as stated fails.  The node CASE(s).WHEN(w1).WHEN(w2).THEN(t1).ELSE(d)
whose subject s is a nil CASE node has 2 conditions and 1 result, and its
serialization returns the subject's error, not the count-mismatch error. -/
theorem case_count_mismatch_counterexample :
    (unbalancedCase (caseOperatorImpl.toExpression none)).when.length = 2
      ∧ (unbalancedCase (caseOperatorImpl.toExpression none)).then_.length = 1
      ∧ (caseOperatorImpl.serialize (some (unbalancedCase (caseOperatorImpl.toExpression none)))
          statementType.selectStatement ⟨[]⟩ []).2 = some "jet: Case Expression is nil. "
      ∧ (caseOperatorImpl.serialize (some (unbalancedCase (caseOperatorImpl.toExpression none)))
          statementType.selectStatement ⟨[]⟩ []).2 ≠
          some "jet: When and then Expression count mismatch. " := by
  refine ⟨by decide, by decide, rfl, ?_⟩
  have h : (caseOperatorImpl.serialize
      (some (unbalancedCase (caseOperatorImpl.toExpression none)))
      statementType.selectStatement ⟨[]⟩ []).2 = some "jet: Case Expression is nil. " := rfl
  rw [h]
  decide

/-- C3. A non-nil CASE node on which neither WHEN nor THEN was called is never
serialized with success: whatever its subject, its ELSE, the statement kind
and the builder, `serialize` returns an error. -/
theorem case_without_pairs_fails (c : caseOperatorImpl) (statement : statementType)
    (out : sqlBuilder) (options : List serializeOption)
    (hwhen : c.when = []) (hthen : c.then_ = []) :
    ∃ err, (caseOperatorImpl.serialize (some c) statement out options).2 = some err := by
  rcases hc : c.expression with _ | e
  · exact ⟨"jet: Invalid case Statement. There should be at least one when/then Expression pair. ",
      by simp only [caseOperatorImpl.serialize, hc, hwhen, hthen, List.length_nil, or_self,
        if_true]⟩
  · rcases hr : e.serialize statement (out.writeString "(CASE") [] with ⟨b, _ | err⟩
    · exact ⟨"jet: Invalid case Statement. There should be at least one when/then Expression pair. ",
        by simp only [caseOperatorImpl.serialize, hc, hr, hwhen, hthen, List.length_nil, or_self,
          if_true]⟩
    · exact ⟨err, by simp only [caseOperatorImpl.serialize, hc, hr]⟩

/-- The instance of C3 at the fresh node CASE(). -/
theorem case_without_pairs_fails_witness :
    (CASE []).when = [] ∧ (CASE []).then_ = []
      ∧ ∃ err, (caseOperatorImpl.serialize (some (CASE [])) statementType.selectStatement
          ⟨[]⟩ []).2 = some err :=
  ⟨rfl, rfl, case_without_pairs_fails (CASE []) statementType.selectStatement ⟨[]⟩ [] rfl rfl⟩

/-- C4. `serialize` on the nil CASE node returns the nil-structural error for
every statement kind, builder and option list, and leaves the builder as it
was. -/
theorem case_nil_fails (statement : statementType) (out : sqlBuilder)
    (options : List serializeOption) :
    caseOperatorImpl.serialize none statement out options =
      (out, some "jet: Case Expression is nil. ") := rfl

/-- C5. Serializing the same CASE node twice, each time into its own builder,
the two builders initialised alike.  The first call hands the node back as it
was (subject, conditions, results, default); the second call, made on the node
as the first call left it, returns the same outcome as the first (success, or
the same error), leaves the same text in its builder and again leaves the
node as it was.  The validation is made again by the second call: when the
first call succeeded and one more WHEN is called on the node before the
second, the second fails. -/
theorem case_serialize_idempotent (c : Option caseOperatorImpl) (statement : statementType)
    (out₁ out₂ : sqlBuilder) (options₁ options₂ : List serializeOption)
    (hinit : out₁ = out₂) :
    (caseOperatorImpl.serializeCall statement options₁ c out₁).1.1 = c
      ∧ (caseOperatorImpl.serializeCall statement options₂
          (caseOperatorImpl.serializeCall statement options₁ c out₁).1.1 out₂).2 =
        (caseOperatorImpl.serializeCall statement options₁ c out₁).2
      ∧ (caseOperatorImpl.serializeCall statement options₂
          (caseOperatorImpl.serializeCall statement options₁ c out₁).1.1 out₂).1.2.buff =
        (caseOperatorImpl.serializeCall statement options₁ c out₁).1.2.buff
      ∧ (caseOperatorImpl.serializeCall statement options₂
          (caseOperatorImpl.serializeCall statement options₁ c out₁).1.1 out₂).1.1 = c
      ∧ (∀ x : Expression,
          (caseOperatorImpl.serializeCall statement options₁ c out₁).2 = none →
          ∃ err, (caseOperatorImpl.serializeCall statement options₂
            ((caseOperatorImpl.serializeCall statement options₁ c out₁).1.1.map
              fun node => node.WHEN x) out₂).2 = some err) := by
  subst hinit
  have hopt : caseOperatorImpl.serialize c statement out₁ options₂ =
      caseOperatorImpl.serialize c statement out₁ options₁ := by
    cases c <;> rfl
  refine ⟨by simp only [serializeCall_eq], by simp only [serializeCall_eq, hopt],
    by simp only [serializeCall_eq, hopt], by simp only [serializeCall_eq], ?_⟩
  simp only [serializeCall_eq]
  intro x hok
  rcases c with _ | node
  · simp [caseOperatorImpl.serialize] at hok
  · by_cases hfail : node.when.length = 0 ∨ node.then_.length = 0
        ∨ node.when.length ≠ node.then_.length
    · obtain ⟨err, herr⟩ :=
        serialize_error_of_check_failed node statement out₁ options₁ hfail
      rw [herr] at hok
      simp at hok
    · have hne : (node.WHEN x).when.length ≠ (node.WHEN x).then_.length := by
        simp only [caseOperatorImpl.WHEN, List.length_append, List.length_singleton]
        omega
      exact serialize_error_of_check_failed (node.WHEN x) statement out₁ options₂
        (Or.inr (Or.inr hne))

/-- The instance of C5 at CASE().WHEN(c1).THEN(r1).WHEN(c2).THEN(r2).ELSE(d):
twice into an empty builder, twice the same text and success. -/
theorem case_serialize_idempotent_witness :
    (caseOperatorImpl.serializeCall statementType.selectStatement [serializeOption.noWrap]
        (caseOperatorImpl.serializeCall statementType.selectStatement [] (some twoBranchCase)
          ⟨[]⟩).1.1 ⟨[]⟩).1.2.buff =
      ["(CASE", "WHEN", "c1", "THEN", "r1", "WHEN", "c2", "THEN", "r2", "ELSE", "d", "END)"]
      ∧ (caseOperatorImpl.serializeCall statementType.selectStatement
          [serializeOption.noWrap]
          (caseOperatorImpl.serializeCall statementType.selectStatement [] (some twoBranchCase)
            ⟨[]⟩).1.1 ⟨[]⟩).2 = none
      ∧ (caseOperatorImpl.serializeCall statementType.selectStatement [] (some twoBranchCase)
          ⟨[]⟩).1.2.buff =
        ["(CASE", "WHEN", "c1", "THEN", "r1", "WHEN", "c2", "THEN", "r2", "ELSE", "d", "END)"] :=
  ⟨(case_serialize_idempotent (some twoBranchCase) statementType.selectStatement ⟨[]⟩ ⟨[]⟩
      [] [serializeOption.noWrap] rfl).2.2.1.trans rfl,
    (case_serialize_idempotent (some twoBranchCase) statementType.selectStatement ⟨[]⟩ ⟨[]⟩
      [] [serializeOption.noWrap] rfl).2.1.trans rfl, rfl⟩

/-- C6. WHEN and THEN calls may be interleaved in any order: a call sequence
whose WHEN calls carry w1..wn in that order and whose THEN calls carry t1..tn
in that order builds, from the same initial node, the node that
WHEN(w1).THEN(t1)...WHEN(wn).THEN(tn) builds.  Its conditions are the initial
ones followed by w1..wn, its results the initial ones followed by t1..tn (the
i-th WHEN stands against the i-th THEN), and it serializes alike. -/
theorem case_when_then_interleaving (c : caseOperatorImpl) (ws ts : List Expression)
    (ops : List BuilderCall) (hlen : ts.length = ws.length)
    (hwhen : whenArgs ops = ws) (hthen : thenArgs ops = ts) :
    c.calls ops = c.calls (pairedCalls ws ts)
      ∧ (c.calls ops).when = c.when ++ ws
      ∧ (c.calls ops).then_ = c.then_ ++ ts
      ∧ (c.calls ops).expression = c.expression
      ∧ (c.calls ops).els = c.els
      ∧ ∀ statement out options,
          caseOperatorImpl.serialize (some (c.calls ops)) statement out options =
            caseOperatorImpl.serialize (some (c.calls (pairedCalls ws ts))) statement out
              options := by
  have heq : c.calls ops = c.calls (pairedCalls ws ts) := by
    rw [calls_eq ops c, calls_eq (pairedCalls ws ts) c, hwhen, hthen,
      whenArgs_pairedCalls ws ts hlen, thenArgs_pairedCalls ws ts hlen]
  refine ⟨heq, ?_, ?_, ?_, ?_, ?_⟩
  · rw [calls_eq ops c, hwhen]
  · rw [calls_eq ops c, hthen]
  · rw [calls_eq ops c]
  · rw [calls_eq ops c]
  · intro statement out options
    rw [heq]

/-- The instance of C6 at the calls WHEN(w1), WHEN(w2), THEN(t1), THEN(t2) on
CASE(): the node serializes as (CASE WHEN w1 THEN t1 WHEN w2 THEN t2 END). -/
theorem case_when_then_interleaving_witness :
    caseOperatorImpl.serialize
        (some ((CASE []).calls [.WHEN (tokenLeaf "w1"), .WHEN (tokenLeaf "w2"),
          .THEN (tokenLeaf "t1"), .THEN (tokenLeaf "t2")]))
        statementType.selectStatement ⟨[]⟩ [] =
      caseOperatorImpl.serialize
        (some ((((CASE []).WHEN (tokenLeaf "w1")).THEN (tokenLeaf "t1")).WHEN
          (tokenLeaf "w2") |>.THEN (tokenLeaf "t2")))
        statementType.selectStatement ⟨[]⟩ []
      ∧ caseOperatorImpl.serialize
          (some ((CASE []).calls [.WHEN (tokenLeaf "w1"), .WHEN (tokenLeaf "w2"),
            .THEN (tokenLeaf "t1"), .THEN (tokenLeaf "t2")]))
          statementType.selectStatement ⟨[]⟩ [] =
        (⟨["(CASE", "WHEN", "w1", "THEN", "t1", "WHEN", "w2", "THEN", "t2", "END)"]⟩, none) :=
  ⟨(case_when_then_interleaving (CASE []) [tokenLeaf "w1", tokenLeaf "w2"]
      [tokenLeaf "t1", tokenLeaf "t2"]
      [.WHEN (tokenLeaf "w1"), .WHEN (tokenLeaf "w2"), .THEN (tokenLeaf "t1"),
        .THEN (tokenLeaf "t2")] rfl rfl rfl).2.2.2.2.2
      statementType.selectStatement ⟨[]⟩ [], rfl⟩

/-- C7. ELSE is last-write-wins: c.ELSE(a).ELSE(b) is the node c.ELSE(b).  Its
default is b, its subject, conditions and results are those of c, it
serializes as c.ELSE(b) does, and what is rendered after the conditions and
results is the token "ELSE" and b alone. -/
theorem case_else_last_write_wins (c : caseOperatorImpl) (a b : Expression) :
    (c.ELSE a).ELSE b = c.ELSE b
      ∧ ((c.ELSE a).ELSE b).els = some b
      ∧ ((c.ELSE a).ELSE b).expression = c.expression
      ∧ ((c.ELSE a).ELSE b).when = c.when
      ∧ ((c.ELSE a).ELSE b).then_ = c.then_
      ∧ (∀ statement out options,
          caseOperatorImpl.serialize (some ((c.ELSE a).ELSE b)) statement out options =
            caseOperatorImpl.serialize (some (c.ELSE b)) statement out options)
      ∧ elseSteps ((c.ELSE a).ELSE b).els =
          [.token "ELSE", .operand b [serializeOption.noWrap]] :=
  ⟨rfl, rfl, rfl, rfl, rfl, fun _ _ _ => rfl, rfl⟩

/-- C8. On a CASE node with n >= 1 conditions and n results, a failing operand
ends the serialization: when the steps before an operand (in render order:
subject, w1, t1, ..., wn, tn, default) all succeed and the operand fails on
the builder they leave, `serialize` returns that operand's error unchanged
with the builder as the operand left it, so that no later operand is
serialized and no later token is written.  Any error such a node returns
arises so. -/
theorem case_child_error_propagates (c : caseOperatorImpl) (statement : statementType)
    (out : sqlBuilder) (options : List serializeOption)
    (hn : 1 ≤ c.when.length) (hlen : c.then_.length = c.when.length) :
    (∀ (pre post : List RenderStep) (x : Expression) (o : List serializeOption)
        (b b2 : sqlBuilder) (err : error),
        [.token "(CASE"] ++ subjectSteps c.expression ++ branchSteps c.when c.then_
            ++ elseSteps c.els ++ [.token "END)"] = pre ++ .operand x o :: post →
        runSteps statement pre out = (b, none) →
        x.serialize statement b o = (b2, some err) →
        caseOperatorImpl.serialize (some c) statement out options = (b2, some err))
      ∧ (∀ (b2 : sqlBuilder) (err : error),
          caseOperatorImpl.serialize (some c) statement out options = (b2, some err) →
          ∃ (pre post : List RenderStep) (x : Expression) (o : List serializeOption)
            (b : sqlBuilder),
            [.token "(CASE"] ++ subjectSteps c.expression ++ branchSteps c.when c.then_
                ++ elseSteps c.els ++ [.token "END)"] = pre ++ .operand x o :: post
              ∧ runSteps statement pre out = (b, none)
              ∧ x.serialize statement b o = (b2, some err)) := by
  have href := serialize_eq_runSteps c statement out options hn hlen
  simp only [caseRendering] at href
  constructor
  · intro pre post x o b b2 err hsplit hpre hx
    rw [href, hsplit]
    exact runSteps_fail_at statement pre post (.operand x o) out b b2 err hpre hx
  · intro b2 err h
    rw [href] at h
    obtain ⟨pre, s, post, b, hsplit, hpre, hs⟩ := runSteps_fail_split statement _ out b2 err h
    cases s with
    | token tok => simp [RenderStep.run] at hs
    | operand x o => exact ⟨pre, post, x, o, b, hsplit, hpre, hs⟩

/-- The instance of C8 at CASE(s).WHEN(w1).THEN(t1).WHEN(x).THEN(t2).ELSE(d)
where x fails with "boom": the error is "boom" and the text ends at the second
"WHEN". -/
theorem case_child_error_propagates_witness :
    1 ≤ failingBranchCase.when.length
      ∧ failingBranchCase.then_.length = failingBranchCase.when.length
      ∧ caseOperatorImpl.serialize (some failingBranchCase) statementType.selectStatement
          ⟨[]⟩ [] =
        (⟨["(CASE", "s", "WHEN", "w1", "THEN", "t1", "WHEN"]⟩, some "boom") :=
  ⟨by decide, by decide,
    (case_child_error_propagates failingBranchCase statementType.selectStatement ⟨[]⟩ []
      (by decide) (by decide)).1
      [.token "(CASE", .operand (tokenLeaf "s") [], .token "WHEN",
        .operand (tokenLeaf "w1") [serializeOption.noWrap], .token "THEN",
        .operand (tokenLeaf "t1") [serializeOption.noWrap], .token "WHEN"]
      [.token "THEN", .operand (tokenLeaf "t2") [serializeOption.noWrap], .token "ELSE",
        .operand (tokenLeaf "d") [serializeOption.noWrap], .token "END)"]
      (failingLeaf "boom") [serializeOption.noWrap]
      ⟨["(CASE", "s", "WHEN", "w1", "THEN", "t1", "WHEN"]⟩
      ⟨["(CASE", "s", "WHEN", "w1", "THEN", "t1", "WHEN"]⟩ "boom" rfl rfl rfl⟩

/-- C9. For all relations L and R, every join kind K and every condition,
the columns of NewJoinTable(L, R, K, cond) are those of L followed by those of
R, its schema name is that of L and its table name is empty.  Joining
table(intCol1) with table2(intCol2), both of schema "schema", gives the two
columns intCol1, intCol2, the schema name "schema" and the table name "". -/
theorem join_table_accessors (L R : ReadableTable) (K : JoinType)
    (cond : Option Expression) :
    (NewJoinTable L R K cond).Columns = L.Columns ++ R.Columns
      ∧ (NewJoinTable L R K cond).SchemaName = L.SchemaName
      ∧ (NewJoinTable L R K cond).TableName = ""
      ∧ ((NewJoinTable (NewTable "schema" "table" "" [IntegerColumn "intCol1"])
            (NewTable "schema" "table2" "" [IntegerColumn "intCol2"]) K cond).Columns.map
            Column.Name = ["intCol1", "intCol2"]
          ∧ (NewJoinTable (NewTable "schema" "table" "" [IntegerColumn "intCol1"])
            (NewTable "schema" "table2" "" [IntegerColumn "intCol2"]) K cond).SchemaName
            = "schema"
          ∧ (NewJoinTable (NewTable "schema" "table" "" [IntegerColumn "intCol1"])
            (NewTable "schema" "table2" "" [IntegerColumn "intCol2"]) K cond).TableName
            = "") :=
  ⟨rfl, rfl, rfl, rfl, rfl, rfl⟩

/-- C11. NewTable(schema, name, alias, columns...) has the schema name and the
table name it was given, and its columns are the supplied ones in the order
supplied, as many as supplied, each with its name unchanged.  For
NewTable("schema", "table", "", IntegerColumn("intCol")) that is one column,
named intCol. -/
theorem new_table_accessors (schemaName name alias_ : String) (columns : List Column) :
    (NewTable schemaName name alias_ columns).SchemaName = schemaName
      ∧ (NewTable schemaName name alias_ columns).TableName = name
      ∧ (NewTable schemaName name alias_ columns).Columns.length = columns.length
      ∧ (NewTable schemaName name alias_ columns).Columns.map Column.Name
          = columns.map Column.Name
      ∧ (∀ i : Nat, ((NewTable schemaName name alias_ columns).Columns[i]?).map Column.Name
          = (columns[i]?).map Column.Name)
      ∧ ((NewTable "schema" "table" "" [IntegerColumn "intCol"]).SchemaName = "schema"
          ∧ (NewTable "schema" "table" "" [IntegerColumn "intCol"]).TableName = "table"
          ∧ (NewTable "schema" "table" "" [IntegerColumn "intCol"]).Columns.map Column.Name
              = ["intCol"]) := by
  refine ⟨rfl, rfl, ?_, ?_, ?_, rfl, rfl, rfl⟩
  · simp [NewTable, ReadableTable.Columns]
  · simp [NewTable, ReadableTable.Columns, Column.Name, Function.comp_def]
  · intro i
    simp only [NewTable, ReadableTable.Columns, List.getElem?_map, Option.map_map]
    rfl

/-- C15, as the code has it.  On a non-nil CASE node whose subject is absent or
serializes without error: when the conditions or the results are empty the
error is the missing-pair error, also when the other sequence is not empty
and whatever the operands are; when both sequences are non-empty and differ
in length the error is the count-mismatch error; and, no operand of the node
failing itself with the count-mismatch error, the count-mismatch error is
returned exactly when both sequences are non-empty and differ in length. -/
theorem case_structural_checks_order (c : caseOperatorImpl) (statement : statementType)
    (out : sqlBuilder) (options : List serializeOption)
    (hsubject : ∀ e, c.expression = some e →
      (e.serialize statement (out.writeString "(CASE") []).2 = none) :
    ((c.when = [] ∨ c.then_ = []) →
        (caseOperatorImpl.serialize (some c) statement out options).2 = some
          "jet: Invalid case Statement. There should be at least one when/then Expression pair. ")
      ∧ ((c.when ≠ [] ∧ c.then_ ≠ [] ∧ c.when.length ≠ c.then_.length) →
          (caseOperatorImpl.serialize (some c) statement out options).2 =
            some "jet: When and then Expression count mismatch. ")
      ∧ ((∀ e, (e ∈ c.when ∨ e ∈ c.then_ ∨ c.els = some e) →
            ∀ b, (e.serialize statement b [serializeOption.noWrap]).2 ≠
              some "jet: When and then Expression count mismatch. ") →
          ((caseOperatorImpl.serialize (some c) statement out options).2 =
              some "jet: When and then Expression count mismatch. "
            ↔ c.when ≠ [] ∧ c.then_ ≠ [] ∧ c.when.length ≠ c.then_.length)) := by
  obtain ⟨b, hb⟩ := runSteps_subject_ok statement c.expression out hsubject
  refine ⟨?_, ?_, fun hoperands =>
    (serialize_count_mismatch_iff c statement out options hsubject hoperands).2⟩
  · intro h
    have h1 : c.when.length = 0 ∨ c.then_.length = 0 := by
      rcases h with h | h
      · exact Or.inl (by rw [h]; rfl)
      · exact Or.inr (by rw [h]; rfl)
    have hfail : c.when.length = 0 ∨ c.then_.length = 0 ∨ c.when.length ≠ c.then_.length := by
      rcases h1 with h | h
      · exact Or.inl h
      · exact Or.inr (Or.inl h)
    rw [serialize_of_check_failed c statement out b options hb hfail]
    simp only [if_pos h1]
  · rintro ⟨hw, ht, hne⟩
    have h1 : ¬ (c.when.length = 0 ∨ c.then_.length = 0) := by
      rintro (h | h)
      · exact hw (List.length_eq_zero.mp h)
      · exact ht (List.length_eq_zero.mp h)
    rw [serialize_of_check_failed c statement out b options hb (Or.inr (Or.inr hne))]
    simp only [if_neg h1]

/-- The instance of the amended C15 at CASE().WHEN(inner), one WHEN and no
THEN, whose condition inner is the unbalanced node
CASE(s).WHEN(w1).WHEN(w2).THEN(t1).ELSE(d): the error is the missing-pair
error. -/
theorem case_structural_checks_order_witness :
    (caseOperatorImpl.serialize
        (some ((CASE []).WHEN
          (caseOperatorImpl.toExpression (some (unbalancedCase (tokenLeaf "s"))))))
        statementType.selectStatement ⟨[]⟩ []).2 = some
      "jet: Invalid case Statement. There should be at least one when/then Expression pair. " :=
  (case_structural_checks_order
    ((CASE []).WHEN (caseOperatorImpl.toExpression (some (unbalancedCase (tokenLeaf "s")))))
    statementType.selectStatement ⟨[]⟩ []
    (by intro e he; simp [CASE, caseOperatorImpl.WHEN] at he)).1 (Or.inr rfl)

/-- C15 as stated fails.  The node CASE().WHEN(inner).THEN(t) has one condition
and one result and no subject, and its serialization returns the
count-mismatch error, which the serialization of its condition inner, the
node CASE(s).WHEN(w1).WHEN(w2).THEN(t1).ELSE(d), has returned. -/
theorem case_structural_checks_order_counterexample :
    nestedUnbalancedCase.expression = none
      ∧ nestedUnbalancedCase.when.length = 1
      ∧ nestedUnbalancedCase.then_.length = 1
      ∧ (caseOperatorImpl.serialize (some nestedUnbalancedCase) statementType.selectStatement
          ⟨[]⟩ []).2 = some "jet: When and then Expression count mismatch. "
      ∧ ¬ ((caseOperatorImpl.serialize (some nestedUnbalancedCase)
              statementType.selectStatement ⟨[]⟩ []).2 =
              some "jet: When and then Expression count mismatch. "
            ↔ nestedUnbalancedCase.when ≠ [] ∧ nestedUnbalancedCase.then_ ≠ []
              ∧ nestedUnbalancedCase.when.length ≠ nestedUnbalancedCase.then_.length) := by
  refine ⟨rfl, rfl, rfl, rfl, ?_⟩
  intro h
  have h2 := (h.mp rfl).2.2
  exact h2 rfl

/-- C16. For a CASE node whose operands succeed or fail whatever the builder
holds, `serialize` returns success exactly when the node is non-nil, has at
least one condition and as many results as conditions, its subject is absent
or serializes with success (default options), every condition and every result
serializes with success (no-wrap), and its default is absent or serializes
with success (no-wrap). -/
theorem case_success_iff (c : Option caseOperatorImpl) (statement : statementType)
    (out : sqlBuilder) (options : List serializeOption)
    (hindep : ∀ node, c = some node → ∀ e,
      (node.expression = some e ∨ e ∈ node.when ∨ e ∈ node.then_ ∨ node.els = some e) →
      ∀ o b b2, (e.serialize statement b o).2 = (e.serialize statement b2 o).2) :
    (caseOperatorImpl.serialize c statement out options).2 = none ↔
      ∃ node, c = some node
        ∧ node.when ≠ []
        ∧ node.when.length = node.then_.length
        ∧ (∀ e, node.expression = some e → (e.serialize statement out []).2 = none)
        ∧ (∀ e ∈ node.when, (e.serialize statement out [serializeOption.noWrap]).2 = none)
        ∧ (∀ e ∈ node.then_, (e.serialize statement out [serializeOption.noWrap]).2 = none)
        ∧ (∀ e, node.els = some e →
            (e.serialize statement out [serializeOption.noWrap]).2 = none) := by
  rcases c with _ | node
  · constructor
    · intro h
      simp [caseOperatorImpl.serialize] at h
    · rintro ⟨node, hnode, -⟩
      simp at hnode
  · have hind := hindep node rfl
    constructor
    · intro h
      by_cases hfail : node.when.length = 0 ∨ node.then_.length = 0
          ∨ node.when.length ≠ node.then_.length
      · obtain ⟨err, herr⟩ := serialize_error_of_check_failed node statement out options hfail
        rw [herr] at h
        simp at h
      · have hn : 1 ≤ node.when.length := by omega
        have hlen : node.then_.length = node.when.length := by omega
        rw [serialize_eq_runSteps node statement out options hn hlen] at h
        rcases hr : runSteps statement (caseRendering node) out with ⟨b2, r⟩
        rw [hr] at h
        simp only at h
        subst h
        have hok := runSteps_ok_mem statement _ out b2 hr
        refine ⟨node, rfl, ?_, hlen.symm, ?_, ?_, ?_, ?_⟩
        · intro h0
          rw [h0] at hn
          simp at hn
        · intro e he
          obtain ⟨b, hb⟩ := hok (.operand e []) (by simp [caseRendering, he, subjectSteps])
          rw [hind e (Or.inl he) [] out b]
          exact hb
        · intro e he
          obtain ⟨b, hb⟩ := hok (.operand e [serializeOption.noWrap])
            (by
              simp only [caseRendering, List.mem_append]
              exact Or.inl (Or.inl (Or.inr (mem_branchSteps_when _ _ hlen e he))))
          rw [hind e (Or.inr (Or.inl he)) _ out b]
          exact hb
        · intro e he
          obtain ⟨b, hb⟩ := hok (.operand e [serializeOption.noWrap])
            (by
              simp only [caseRendering, List.mem_append]
              exact Or.inl (Or.inl (Or.inr (mem_branchSteps_then _ _ hlen e he))))
          rw [hind e (Or.inr (Or.inr (Or.inl he))) _ out b]
          exact hb
        · intro e he
          obtain ⟨b, hb⟩ := hok (.operand e [serializeOption.noWrap])
            (by simp [caseRendering, he, elseSteps])
          rw [hind e (Or.inr (Or.inr (Or.inr he))) _ out b]
          exact hb
    · rintro ⟨node2, hnode, hne, hlen, hsub, hwhen, hthen, hels⟩
      simp only [Option.some.injEq] at hnode
      subst hnode
      have hn : 1 ≤ node.when.length := by
        rcases hw : node.when with _ | ⟨w, ws⟩
        · exact absurd hw hne
        · simp
      rw [serialize_of_operands_ok node statement out options hn hlen.symm
        (fun e he b => by rw [hind e (Or.inl he) [] b out]; exact hsub e he)
        (fun e he b => by rw [hind e (Or.inr (Or.inl he)) _ b out]; exact hwhen e he)
        (fun e he b => by rw [hind e (Or.inr (Or.inr (Or.inl he))) _ b out]; exact hthen e he)
        (fun e he b => by rw [hind e (Or.inr (Or.inr (Or.inr he))) _ b out]; exact hels e he)]

/-- The instance of C16 at CASE().WHEN(c1).THEN(r1).WHEN(c2).THEN(r2).ELSE(d)
over token leaves, which is serialized with success. -/
theorem case_success_iff_witness :
    (caseOperatorImpl.serialize (some twoBranchCase) statementType.selectStatement
        ⟨[]⟩ []).2 = none
      ∧ ∃ node, some twoBranchCase = some node
        ∧ node.when ≠ []
        ∧ node.when.length = node.then_.length
        ∧ (∀ e, node.expression = some e →
            (e.serialize statementType.selectStatement ⟨[]⟩ []).2 = none)
        ∧ (∀ e ∈ node.when,
            (e.serialize statementType.selectStatement ⟨[]⟩ [serializeOption.noWrap]).2 = none)
        ∧ (∀ e ∈ node.then_,
            (e.serialize statementType.selectStatement ⟨[]⟩ [serializeOption.noWrap]).2 = none)
        ∧ (∀ e, node.els = some e →
            (e.serialize statementType.selectStatement ⟨[]⟩ [serializeOption.noWrap]).2
              = none) :=
  ⟨rfl,
    (case_success_iff (some twoBranchCase) statementType.selectStatement ⟨[]⟩ []
      (by
        intro node hnode e he o b b2
        simp only [Option.some.injEq] at hnode
        subst hnode
        simp only [twoBranchCase, CASE, caseOperatorImpl.WHEN, caseOperatorImpl.THEN,
          caseOperatorImpl.ELSE, List.nil_append, List.cons_append, List.mem_cons,
          List.mem_singleton, List.not_mem_nil, or_false, Option.some.injEq, reduceCtorEq,
          false_or] at he
        rcases he with (rfl | rfl) | (rfl | rfl) | rfl <;> rfl)).mp rfl⟩

/-- C17. WHEN and THEN append and touch nothing else.  The conditions of
c.WHEN(x) are those of c followed by x, and its subject, results and default
are those of c; the results of c.THEN(x) are those of c followed by x, and its
subject, conditions and default are those of c.  The entries c already had
keep their places, and the node returned is the updated node, on which the
next call is made. -/
theorem case_when_then_append (c : caseOperatorImpl) (x : Expression) :
    ((c.WHEN x).when = c.when ++ [x]
        ∧ (c.WHEN x).expression = c.expression
        ∧ (c.WHEN x).then_ = c.then_
        ∧ (c.WHEN x).els = c.els)
      ∧ ((c.THEN x).then_ = c.then_ ++ [x]
        ∧ (c.THEN x).expression = c.expression
        ∧ (c.THEN x).when = c.when
        ∧ (c.THEN x).els = c.els)
      ∧ (∀ i, i < c.when.length → (c.WHEN x).when[i]? = c.when[i]?)
      ∧ (∀ i, i < c.then_.length → (c.THEN x).then_[i]? = c.then_[i]?)
      ∧ ((c.WHEN x).when.length = c.when.length + 1
        ∧ (c.THEN x).then_.length = c.then_.length + 1)
      ∧ (∀ y, ((c.WHEN x).THEN y).when = c.when ++ [x]
          ∧ ((c.WHEN x).THEN y).then_ = c.then_ ++ [y]
          ∧ (c.WHEN x).THEN y = c.calls [.WHEN x, .THEN y]) := by
  refine ⟨⟨rfl, rfl, rfl, rfl⟩, ⟨rfl, rfl, rfl, rfl⟩, ?_, ?_, ⟨?_, ?_⟩,
    fun y => ⟨rfl, rfl, rfl⟩⟩
  · intro i hi
    simp only [caseOperatorImpl.WHEN]
    exact List.getElem?_append_left hi
  · intro i hi
    simp only [caseOperatorImpl.THEN]
    exact List.getElem?_append_left hi
  · simp [caseOperatorImpl.WHEN]
  · simp [caseOperatorImpl.THEN]

/-- C18. A CASE node that fails the missing-pair or the count-mismatch check,
its subject absent or serialized without error, returns that error and leaves
in the builder what was there, then the token "(CASE", then what the subject
wrote, and nothing after: without a subject the buffer is the previous one
followed by "(CASE" alone, and is not the previous buffer. -/
theorem case_structural_failure_fragment (c : caseOperatorImpl) (statement : statementType)
    (out : sqlBuilder) (options : List serializeOption)
    (hsubject : ∀ e, c.expression = some e →
      (e.serialize statement (out.writeString "(CASE") []).2 = none)
    (hfail : c.when.length = 0 ∨ c.then_.length = 0 ∨ c.when.length ≠ c.then_.length) :
    ((caseOperatorImpl.serialize (some c) statement out options).2 = some
          "jet: Invalid case Statement. There should be at least one when/then Expression pair. "
        ∨ (caseOperatorImpl.serialize (some c) statement out options).2 = some
          "jet: When and then Expression count mismatch. ")
      ∧ (caseOperatorImpl.serialize (some c) statement out options).1 =
          appendSteps statement ([.token "(CASE"] ++ subjectSteps c.expression) out
      ∧ (∀ e, c.expression = some e →
          (caseOperatorImpl.serialize (some c) statement out options).1 =
            (e.serialize statement (out.writeString "(CASE") []).1)
      ∧ (c.expression = none →
          (caseOperatorImpl.serialize (some c) statement out options).1.buff
              = out.buff ++ ["(CASE"]
            ∧ (caseOperatorImpl.serialize (some c) statement out options).1.buff
              ≠ out.buff) := by
  obtain ⟨b, hb⟩ := runSteps_subject_ok statement c.expression out hsubject
  rw [serialize_of_check_failed c statement out b options hb hfail]
  rw [runSteps_subject] at hb
  refine ⟨?_, ?_, ?_, ?_⟩
  · by_cases h1 : c.when.length = 0 ∨ c.then_.length = 0
    · exact Or.inl (by simp only [if_pos h1])
    · exact Or.inr (by simp only [if_neg h1])
  · rcases hc : c.expression with _ | e
    · rw [hc] at hb
      simp only [Prod.mk.injEq, and_true] at hb
      simp only [subjectSteps, List.append_nil, appendSteps, RenderStep.run]
      exact hb.symm
    · rw [hc] at hb
      have hb2 : e.serialize statement (out.writeString "(CASE") [] = (b, none) := hb
      simp only [subjectSteps, List.singleton_append, appendSteps, RenderStep.run, hb2]
  · intro e hc
    rw [hc] at hb
    have hb2 : e.serialize statement (out.writeString "(CASE") [] = (b, none) := hb
    simp only [hb2]
  · intro hc
    rw [hc] at hb
    simp only [Prod.mk.injEq, and_true] at hb
    subst hb
    simp [sqlBuilder.writeString]

/-- The instance of C18 at CASE(s).WHEN(w1).WHEN(w2).THEN(t1).ELSE(d): after
the failed call the buffer holds "(CASE" and the subject, and nothing else. -/
theorem case_structural_failure_fragment_witness :
    (caseOperatorImpl.serialize (some (unbalancedCase (tokenLeaf "s")))
        statementType.selectStatement ⟨["SELECT"]⟩ []).1 = ⟨["SELECT", "(CASE", "s"]⟩ :=
  ((case_structural_failure_fragment (unbalancedCase (tokenLeaf "s"))
    statementType.selectStatement ⟨["SELECT"]⟩ []
    (by
      intro e he
      simp only [unbalancedCase, CASE, caseOperatorImpl.WHEN, caseOperatorImpl.THEN,
        caseOperatorImpl.ELSE, Option.some.injEq] at he
      subst he
      rfl)
    (Or.inr (Or.inr (by decide)))).2.1).trans rfl

/-- C19. `serialize` on a CASE node does not look at the options of its
caller: outcome and builder are the same for any two option lists.  The steps
a node with n >= 1 conditions and n results carries out give the subject the
default options and the other operands no-wrap, whatever the caller passed,
and with no-wrap passed the text still opens with "(CASE" and closes with
"END)". -/
theorem case_serialize_ignores_options (c : Option caseOperatorImpl)
    (statement : statementType) (out : sqlBuilder) (options₁ options₂ : List serializeOption) :
    caseOperatorImpl.serialize c statement out options₁ =
        caseOperatorImpl.serialize c statement out options₂
      ∧ (∀ node, c = some node → 1 ≤ node.when.length →
          node.then_.length = node.when.length →
          caseOperatorImpl.serialize c statement out options₁ =
            runSteps statement
              ([.token "(CASE"] ++ subjectSteps node.expression
                ++ branchSteps node.when node.then_ ++ elseSteps node.els
                ++ [.token "END)"]) out)
      ∧ caseOperatorImpl.serialize (some probeCase) statement out [serializeOption.noWrap] =
          (⟨out.buff ++ ["(CASE", "wrapped", "WHEN", "bare", "THEN", "bare", "ELSE", "bare",
            "END)"]⟩, none)
      ∧ caseOperatorImpl.serialize (some probeCase) statement out [] =
          (⟨out.buff ++ ["(CASE", "wrapped", "WHEN", "bare", "THEN", "bare", "ELSE", "bare",
            "END)"]⟩, none) := by
  refine ⟨?_, ?_, ?_, ?_⟩
  · cases c <;> rfl
  · intro node hnode hn hlen
    subst hnode
    exact serialize_eq_runSteps node statement out options₁ hn hlen
  · simp [caseOperatorImpl.serialize, caseOperatorImpl.serializeWhenThen, probeCase, CASE,
      caseOperatorImpl.WHEN, caseOperatorImpl.THEN, caseOperatorImpl.ELSE, wrapProbe,
      sqlBuilder.writeString]
  · simp [caseOperatorImpl.serialize, caseOperatorImpl.serializeWhenThen, probeCase, CASE,
      caseOperatorImpl.WHEN, caseOperatorImpl.THEN, caseOperatorImpl.ELSE, wrapProbe,
      sqlBuilder.writeString]

/-- C20. CASE keeps the first of its arguments and drops the others:
CASE(e1, ..., ek) is the node CASE(e1), with subject e1, and CASE() has no
subject.  The new node has no condition, no result and no default, and its
serialization before any WHEN or THEN call fails. -/
theorem case_constructor_first_argument (e : Expression) (rest args : List Expression) :
    CASE (e :: rest) = CASE [e]
      ∧ (CASE (e :: rest)).expression = some e
      ∧ (CASE []).expression = none
      ∧ ((CASE args).when = [] ∧ (CASE args).then_ = [] ∧ (CASE args).els = none)
      ∧ (∀ statement out options,
          caseOperatorImpl.serialize (some (CASE (e :: rest))) statement out options =
            caseOperatorImpl.serialize (some (CASE [e])) statement out options)
      ∧ (∀ statement out options, ∃ err,
          (caseOperatorImpl.serialize (some (CASE args)) statement out options).2
            = some err) :=
  ⟨rfl, rfl, rfl, ⟨rfl, rfl, rfl⟩, fun _ _ _ => rfl,
    fun statement out options =>
      serialize_error_of_check_failed (CASE args) statement out options (Or.inl rfl)⟩

/-- C12. Serializing eq(a, b) with the default options writes "(", then a,
then "=", then b, then ")": one pair of parentheses around the two operands,
and none when the caller passes no-wrap.  A leaf operand comes without
parentheses of its own, an operand that is an operator with its own pair:
for leaves a and b, eq(a, b) is (a = b) and eq(NOT(a), b) is ((NOT a) = b). -/
theorem eq_serialize_wraps_once (a b : Expression) (statement : statementType)
    (out : sqlBuilder) :
    (eq a b).serialize statement out [] =
        runSteps statement
          [.token "(", .operand a [], .token "=", .operand b [], .token ")"] out
      ∧ (eq a b).serialize statement out [serializeOption.noWrap] =
        runSteps statement [.operand a [], .token "=", .operand b []] out
      ∧ (∀ x y : String, (eq (tokenLeaf x) (tokenLeaf y)).serialize statement out [] =
          (⟨out.buff ++ ["(", x, "=", y, ")"]⟩, none))
      ∧ (∀ x y : String,
          (eq (NOT (tokenLeaf x)).toExpression (tokenLeaf y)).serialize statement out [] =
            (⟨out.buff ++ ["(", "(", "NOT", x, ")", "=", y, ")"]⟩, none)) := by
  refine ⟨?_, ?_, ?_, ?_⟩
  · simp only [eq, newBinaryBoolOperator, binaryOpExpression.serialize, runSteps,
      RenderStep.run, List.not_mem_nil, not_false_eq_true, decide_True, if_true]
    rcases a.serialize statement (out.writeString "(") [] with ⟨b1, _ | e1⟩
    · simp only
      rcases b.serialize statement (b1.writeString "=") [] with ⟨b2, _ | e2⟩ <;> rfl
    · rfl
  · simp only [eq, newBinaryBoolOperator, binaryOpExpression.serialize, runSteps,
      RenderStep.run, List.mem_singleton, not_true_eq_false, decide_False, Bool.false_eq_true,
      if_false]
    rcases a.serialize statement out [] with ⟨b1, _ | e1⟩
    · simp only
      rcases b.serialize statement (b1.writeString "=") [] with ⟨b2, _ | e2⟩ <;> rfl
    · rfl
  · intro x y
    simp [eq, newBinaryBoolOperator, binaryOpExpression.serialize, tokenLeaf,
      sqlBuilder.writeString]
  · intro x y
    simp [eq, NOT, newBinaryBoolOperator, newPrefixBoolOperator, binaryOpExpression.serialize,
      prefixOpExpression.serialize, prefixOpExpression.toExpression, tokenLeaf,
      sqlBuilder.writeString]

/-- C13. Each operator constructor builds a node that holds the token of the
operator and the operands in the order given: eq, notEq, isDistinctFrom,
isNotDistinctFrom, lt, ltEq, gt, gtEq a boolean binary node with left operand
lhs, right operand rhs and token "=", "!=", "IS DISTINCT FROM",
"IS NOT DISTINCT FROM", "<", "<=", ">", ">="; NOT and EXISTS a boolean prefix
node with token "NOT" and "EXISTS"; BIT_NOT an integer prefix node with token
"~".  A constructor takes no builder and writes nothing. -/
theorem operator_constructors_record (lhs rhs exp : Expression) (subQuery : SelectStatement) :
    (eq lhs rhs = ⟨lhs, rhs, "=", ResultCategory.boolean⟩
        ∧ notEq lhs rhs = ⟨lhs, rhs, "!=", ResultCategory.boolean⟩
        ∧ isDistinctFrom lhs rhs = ⟨lhs, rhs, "IS DISTINCT FROM", ResultCategory.boolean⟩
        ∧ isNotDistinctFrom lhs rhs
            = ⟨lhs, rhs, "IS NOT DISTINCT FROM", ResultCategory.boolean⟩
        ∧ lt lhs rhs = ⟨lhs, rhs, "<", ResultCategory.boolean⟩
        ∧ ltEq lhs rhs = ⟨lhs, rhs, "<=", ResultCategory.boolean⟩
        ∧ gt lhs rhs = ⟨lhs, rhs, ">", ResultCategory.boolean⟩
        ∧ gtEq lhs rhs = ⟨lhs, rhs, ">=", ResultCategory.boolean⟩)
      ∧ ((eq lhs rhs).lhs = lhs ∧ (eq lhs rhs).rhs = rhs ∧ (eq lhs rhs).operator = "=")
      ∧ (NOT exp = ⟨exp, "NOT", ResultCategory.boolean⟩
        ∧ EXISTS subQuery = ⟨subQuery.toExpression, "EXISTS", ResultCategory.boolean⟩
        ∧ BIT_NOT exp = ⟨exp, "~", ResultCategory.integer⟩) :=
  ⟨⟨rfl, rfl, rfl, rfl, rfl, rfl, rfl, rfl⟩, ⟨rfl, rfl, rfl⟩, ⟨rfl, rfl, rfl⟩⟩

/-- C14. Rendering completes on every finite expression tree, CASE nodes
nested to any depth in subject, WHEN, THEN or ELSE position: `serialize`
returns a builder with success or with an error, and the calls of `serialize`
it makes nest no deeper than the tree is deep, each being made on an operand
of the node that makes it. -/
theorem case_serialize_terminates (t : ExprTree) (statement : statementType)
    (out : sqlBuilder) (options : List serializeOption) :
    (∃ b r, t.toExpression.serialize statement out options = (b, r)
        ∧ (r = none ∨ ∃ err, r = some err))
      ∧ (∀ n, t.depth ≤ n →
          t.serializeWithin n statement out options =
            some (t.toExpression.serialize statement out options))
      ∧ nestedCaseTree.depth = 3
      ∧ nestedCaseTree.serializeWithin 3 statementType.selectStatement ⟨[]⟩ [] =
          some (⟨["(CASE", "(CASE", "WHEN", "a", "THEN", "b", "END)", "WHEN", "c", "THEN",
            "(CASE", "WHEN", "d", "THEN", "e", "END)", "ELSE", "f", "END)"]⟩, none) := by
  refine ⟨?_, fun n hn => serializeWithin_eq n t hn statement out options, rfl, rfl⟩
  rcases t.toExpression.serialize statement out options with ⟨b, _ | err⟩
  · exact ⟨b, none, rfl, Or.inl rfl⟩
  · exact ⟨b, some err, rfl, Or.inr ⟨err, rfl⟩⟩

end jet
